import Mathlib

/- Verification of the static-site generator `generate.py` (poison-ivy-removal).
Strings are modelled as Lean `String`s, i.e. lists of Unicode code points,
matching Python's `str`.  Each definition below embeds the source function of
the same name; Python floats are modelled as rationals (the multipliers the
claims exercise are exactly representable, so the models agree there). -/

namespace Gen

/-- The double-quote character. -/
def dq : Char := Char.ofNat 34

/-- The single-quote character. -/
def sq : Char := Char.ofNat 39

/-- Left curly brace. -/
def lbrace : Char := Char.ofNat 123

/-- Right curly brace. -/
def rbrace : Char := Char.ofNat 125

/-- Horizontal ellipsis, the character `clamp_title` appends. -/
def hellip : Char := Char.ofNat 0x2026

/-- Python `str.isspace` restricted to ASCII whitespace (space, tab, newline,
carriage return, vertical tab, form feed); the generator's data contains no
exotic Unicode whitespace. -/
def pyIsSpace (c : Char) : Bool :=
  c == ' ' || c == '\t' || c == '\n' || c == '\x0d' || c == '\x0b' || c == '\x0c'

/-- `html.escape(s, quote=True)` acting on one character. -/
def escChar (c : Char) : List Char :=
  if c = '&' then "&amp;".data
  else if c = '<' then "&lt;".data
  else if c = '>' then "&gt;".data
  else if c = dq then "&quot;".data
  else if c = sq then "&#x27;".data
  else [c]

/-- `html.escape(s, quote=True)` on a character list. -/
def escList (l : List Char) : List Char := l.flatMap escChar

/-- `esc` from generate.py: `html.escape(s, quote=True)`. -/
def esc (s : String) : String := ⟨escList s.data⟩

/-- Membership in the character class `[a-z0-9]`. -/
def isLowerAlnum (c : Char) : Bool :=
  (97 ≤ c.toNat && c.toNat ≤ 122) || (48 ≤ c.toNat && c.toNat ≤ 57)

/-- Drop a trailing run of characters satisfying `p` (the right half of a
Python `strip`). -/
def dropTrailing (p : Char → Bool) : List Char → List Char
  | [] => []
  | c :: rest =>
    if (dropTrailing p rest).isEmpty && p c then [] else c :: dropTrailing p rest

/-- Python `s.strip(...)`: drop leading and trailing characters satisfying
`p`. -/
def stripChars (p : Char → Bool) (l : List Char) : List Char :=
  dropTrailing p (l.dropWhile p)

/-- `re.sub(r"&", " and ", s)`. -/
def ampExpand (l : List Char) : List Char :=
  l.flatMap (fun c => if c = '&' then " and ".data else [c])

/-- One-pass worker for `re.sub(r"[^a-z0-9]+", "-", s)`: `inRun` records
whether the previous character belonged to a run of characters outside
`[a-z0-9]` (each such maximal run contributes a single hyphen, at its first
character). -/
def subNonAlnumGo (inRun : Bool) : List Char → List Char
  | [] => []
  | c :: rest =>
    if isLowerAlnum c then c :: subNonAlnumGo false rest
    else if inRun then subNonAlnumGo true rest
    else '-' :: subNonAlnumGo true rest

/-- `re.sub(r"[^a-z0-9]+", "-", s)`: every maximal run of characters outside
`[a-z0-9]` becomes one hyphen. -/
def subNonAlnum (l : List Char) : List Char := subNonAlnumGo false l

/-- One-pass worker for `re.sub(r"-{2,}", "-", s)`: `prevHyphen` records
whether the previous character was a hyphen, so that only the first hyphen of
each run is kept. -/
def collapseGo (prevHyphen : Bool) : List Char → List Char
  | [] => []
  | c :: rest =>
    if c = '-' then
      if prevHyphen then collapseGo true rest else '-' :: collapseGo true rest
    else c :: collapseGo false rest

/-- `re.sub(r"-{2,}", "-", s)`: collapse every run of two or more hyphens to
one (on a single hyphen the result is likewise that hyphen). -/
def collapseHyphens (l : List Char) : List Char := collapseGo false l

/-- The hyphen test used throughout the slug lemmas. -/
def isHyph (c : Char) : Bool := c == '-'

/-- `slugify` from generate.py, on character lists: strip and lowercase,
expand `&` to `" and "`, replace non-`[a-z0-9]` runs by hyphens, collapse
repeated hyphens, strip outer hyphens. -/
def slugifyList (l : List Char) : List Char :=
  stripChars isHyph
    (collapseHyphens
      (subNonAlnum
        (ampExpand
          ((stripChars pyIsSpace l).map Char.toLower))))

/-- `slugify` from generate.py. -/
def slugify (s : String) : String := ⟨slugifyList s.data⟩

/-- `city_state_slug` from generate.py. -/
def city_state_slug (city state : String) : String :=
  slugify city ++ "-" ++ slugify state

/-- Python's slice `l[:n]` for an arbitrary integer bound `n` (a negative
bound counts from the end, clamping at zero). -/
def pySlice (n : ℤ) (l : List Char) : List Char :=
  if n < 0 then l.take (l.length - (-n).toNat) else l.take n.toNat

/-- Python `str.rstrip()`: remove trailing whitespace. -/
def rstrip (l : List Char) : List Char := dropTrailing pyIsSpace l

/-- `clamp_title` from generate.py; `max_chars` is a Python `int` and length
is counted in code points, exactly as Python's `len`. -/
def clamp_title (title : String) (max_chars : ℤ := 70) : String :=
  if (title.length : ℤ) ≤ max_chars then title
  else ⟨rstrip (pySlice (max_chars - 1) title.data) ++ [hellip]⟩

example : slugify "  Austin " = "austin" := by decide
example : slugify "St. Louis" = "st-louis" := by decide
example : slugify "A&B" = "a-and-b" := by decide
example : city_state_slug "Austin" "tx" = "austin-tx" := by decide
example : city_state_slug "!!!" "TX" = "-tx" := by decide
example : clamp_title "short" 70 = "short" := by decide
example : clamp_title "abcdef" 3 = String.mk ['a', 'b', hellip] := by decide

namespace SiteConfig

def base_name : String :=
  "Poison Ivy Removal"

def brand_name : String :=
  "Poison Ivy Removal Company"

def cta_text : String :=
  "Get Free Estimate"

def cta_href : String :=
  "mailto:hello@example.com?subject=Free%20Quote%20Request"

def image_filename : String :=
  "picture.png"

def cost_low : Nat := 300

def cost_high : Nat := 1200

def h1_title : String :=
  "Poison Ivy Removal/Poison Ivy Control/Ivy Removal Services"

def h1_short : String :=
  "Poison Ivy Removal/Poison Ivy Control Services"

def h1_sub : String :=
  "Safe identification, removal, and control to reduce exposure risk and stop regrowth."

def cost_title : String :=
  "Poison Ivy Removal Cost"

def cost_sub : String :=
  "Typical pricing ranges, key cost factors, and what drives higher quotes."

def howto_title : String :=
  "How to Remove Poison Ivy"

def howto_sub : String :=
  "DIY removal can work for small patches—but only if you avoid spreading oils and address regrowth."

def main_h2 : List String := [
  "How Do I Find Poison Ivy Removal Near Me?",
  "What Are Poison Ivy Removal Services?",
  "What Does a Poison Ivy Plant Look Like?",
  "What Is a Poison Ivy Vine?",
  "Can Poison Ivy Grow in Grass?",
  "What Should You Do If You Have Poison Ivy in Your Yard?",
  "What Does Poison Ivy Control Mean?"
]

def main_p : List String := [
  "The fastest way to find poison ivy removal near you is to choose a local company that can inspect the area and remove the plant safely. Because poison ivy oils spread easily through contact with tools, shoes, pets, and clothing, an on-site assessment helps prevent accidental exposure and missed growth.",
  "Poison ivy removal services are professional treatments that remove visible poison ivy and target the root systems to reduce the chance of it coming back. Many services also include containment and cleanup practices designed to avoid spreading the plant’s oils to nearby surfaces.",
  "A poison ivy plant is often recognized by its leaf clusters and the way it grows along fences, tree lines, and wooded edges. Since poison ivy can change appearance by season and location, misidentification is common without close inspection.",
  "A poison ivy vine is poison ivy that climbs trees, fences, or structures instead of staying low to the ground. Vines are harder to spot and can spread over time, which often makes infestations more difficult to remove safely.",
  "Yes, poison ivy can grow in grass, especially near borders, shaded edges, and low-maintenance areas. When it blends into turf or ground cover, it increases the chance of accidental contact during mowing, walking, or yard work.",
  "If you have poison ivy in your yard, the safest first step is to avoid disturbing it and limit contact in the area. Pulling, cutting, or trimming without proper handling can spread oils and leave roots behind, which often leads to regrowth and repeat exposure.",
  "Poison ivy control means reducing or eliminating poison ivy growth and preventing it from returning. In practice, control usually involves removing existing plants and addressing the root systems and problem areas where poison ivy tends to regrow."
]

def howto_h2 : List String := [
  "How to Remove Poison Ivy",
  "How to Get Rid of Poison Ivy",
  "How to Kill Poison Ivy",
  "What Kills Poison Ivy?",
  "What Kills Poison Ivy Permanently?",
  "How to Get Rid of Poison Ivy Without Killing Other Plants"
]

def howto_p : List String := [
  "To remove poison ivy, you need to eliminate the plant and its roots without spreading oils to your skin, tools, or nearby surfaces. Small patches can sometimes be removed carefully, but missed roots are a common reason poison ivy returns.",
  "The best way to get rid of poison ivy is to remove the growth you can see and stop the plant from regrowing from remaining roots. If you only cut it back, you may see short-term improvement while the infestation continues underground.",
  "To kill poison ivy, you need to stop it at the root—not just knock down the surface growth. Many homeowners end up repeating removal attempts because the plant survives below ground and grows back in the same areas.",
  "What kills poison ivy is any approach that reaches the root system and prevents regrowth. If poison ivy keeps reappearing in the same spots, it usually means only the top growth is being removed while roots remain intact.",
  "The closest thing to killing poison ivy permanently is full root elimination and preventing regrowth in the same area. If vines have climbed trees or the infestation covers a wide footprint, professional \x7bpoison ivy removal services\x7d are often the safer and more reliable option.",
  "To get rid of poison ivy without killing other plants, you have to be precise about what you remove and avoid spreading oils into surrounding landscaping. This is hardest when poison ivy is mixed into shrubs, groundcover, or dense plantings where accidental damage is more likely."
]

def cost_h2 : List String := [
  "How Much Does Poison Ivy Removal Cost?",
  "What Affects Poison Ivy Removal Cost?",
  "Is Poison Ivy Removal Near Me More Expensive?"
]

def cost_p : List String := [
  "Poison ivy removal cost depends mostly on how much area is affected and whether vines or roots have spread into hard-to-reach places. Smaller, contained patches are typically less expensive, while widespread growth along fences, tree lines, or landscaping increases labor and disposal needs.",
  "The biggest factors that affect poison ivy removal cost are infestation size, accessibility, vine growth on structures or trees, and the likelihood of regrowth without follow-up control. The more hidden poison ivy is around edges and landscaping, the more time it usually takes to remove safely.",
  "Poison ivy removal near you can cost more or less depending on local labor rates and how quickly a provider can schedule the work. In most cases, the main driver is the severity of the infestation once someone evaluates the property."
]

def location_cost_h2 : String :=
  "How Much Does Poison Ivy Removal Cost in \x7bCity, State\x7d?"

def location_cost_p : String :=
  "In \x7bCity, State\x7d, most poison ivy removal projects range from \x7bcost_lo\x7d to \x7bcost_hi\x7d, depending on infestation size and how difficult the plant is to access and fully eliminate. Prices can vary based on local labor rates, property layout, and disposal requirements. For a clearer breakdown of what affects pricing, you can \x7bview our poison ivy removal cost guide\x7d."

def image_prompt : String :=
  "A realistic outdoor photo of a landscaper removing poison ivy from a backyard fence line, wearing protective gloves, long sleeves, and eye protection, using hand tools and a heavy-duty yard bag for containment; natural lighting, real suburban yard environment, no staged stock-photo look."

/-- Chunk 0 of the CSS constant (split only to keep kernel evaluation shallow; the concatenation equals the source string verbatim). -/
def cssChunk0 : String :=
  ":root\x7b\n  --bg:#fafaf9;\n  --surface:#ffffff;\n  --ink:#111827;\n  --muted:#4b5563;\n  --line:#e7e5e4;\n  --soft:#f5f5f4;\n\n  --cta:#16a34a;\n  --cta2:#15803d;\n\n  --max:980px;\n  --radius:16px;\n  --shadow:0 10px 30px rgba(17,24,39,0.06);\n  --shadow2:0 10px 24px rgba(17,24,39,0.08);\n\x7d\n*\x7bbox-sizing:border-box\x7d\nhtml\x7bcolor-scheme:light\x7d\nbody\x7b\n  margin:0;\n  font-family:ui-sans-serif,system-ui,-apple-system,Sego"

/-- Chunk 1 of the CSS constant (split only to keep kernel evaluation shallow; the concatenation equals the source string verbatim). -/
def cssChunk1 : String :=
  "e UI,Roboto,Helvetica,Arial;\n  color:var(--ink);\n  background:var(--bg);\n  line-height:1.6;\n\x7d\na\x7bcolor:inherit\x7d\na:focus\x7boutline:2px solid var(--cta); outline-offset:2px\x7d\n\n.topbar\x7b\n  position:sticky;\n  top:0;\n  z-index:50;\n  background:rgba(250,250,249,0.92);\n  backdrop-filter:saturate(140%) blur(10px);\n  border-bottom:1px solid var(--line);\n\x7d\n.topbar-inner\x7b\n  max-width:var(--max);\n  margin:0 auto;\n"

/-- Chunk 2 of the CSS constant (split only to keep kernel evaluation shallow; the concatenation equals the source string verbatim). -/
def cssChunk2 : String :=
  "  padding:12px 18px;\n  display:flex;\n  align-items:center;\n  justify-content:space-between;\n  gap:14px;\n\x7d\n.brand\x7b\n  font-weight:900;\n  letter-spacing:-0.02em;\n  text-decoration:none;\n\x7d\n.nav\x7b\n  display:flex;\n  align-items:center;\n  gap:12px;\n  flex-wrap:wrap;\n  justify-content:flex-end;\n\x7d\n.nav a\x7b\n  text-decoration:none;\n  font-size:13px;\n  color:var(--muted);\n  padding:7px 10px;\n  border-radius:12p"

/-- Chunk 3 of the CSS constant (split only to keep kernel evaluation shallow; the concatenation equals the source string verbatim). -/
def cssChunk3 : String :=
  "x;\n  border:1px solid transparent;\n\x7d\n.nav a:hover\x7b\n  background:var(--soft);\n  border-color:var(--line);\n\x7d\n.nav a[aria-current=\x22page\x22]\x7b\n  color:var(--ink);\n  background:var(--soft);\n  border:1px solid var(--line);\n\x7d\n\n.btn\x7b\n  display:inline-block;\n  padding:9px 12px;\n  background:var(--cta);\n  color:#fff;\n  border-radius:12px;\n  text-decoration:none;\n  font-weight:900;\n  font-size:13px;\n  border:1p"

/-- Chunk 4 of the CSS constant (split only to keep kernel evaluation shallow; the concatenation equals the source string verbatim). -/
def cssChunk4 : String :=
  "x solid rgba(0,0,0,0.04);\n  box-shadow:0 8px 18px rgba(22,163,74,0.18);\n\x7d\n.btn:hover\x7bbackground:var(--cta2)\x7d\n.btn:focus\x7boutline:2px solid var(--cta2); outline-offset:2px\x7d\n\n/* IMPORTANT: nav links apply grey text; ensure CTA stays white in the toolbar */\n.nav a.btn\x7b\n  color:#fff;\n  background:var(--cta);\n  border-color:rgba(0,0,0,0.04);\n\x7d\n.nav a.btn:hover\x7bbackground:var(--cta2)\x7d\n.nav a.btn:focus\x7bou"

/-- Chunk 5 of the CSS constant (split only to keep kernel evaluation shallow; the concatenation equals the source string verbatim). -/
def cssChunk5 : String :=
  "tline:2px solid var(--cta2); outline-offset:2px\x7d\n\nheader\x7b\n  border-bottom:1px solid var(--line);\n  background:\n    radial-gradient(1200px 380px at 10% -20%, rgba(22,163,74,0.08), transparent 55%),\n    radial-gradient(900px 320px at 95% -25%, rgba(17,24,39,0.06), transparent 50%),\n    #fbfbfa;\n\x7d\n.hero\x7b\n  max-width:var(--max);\n  margin:0 auto;\n  padding:34px 18px 24px;\n  display:grid;\n  gap:10px;\n  "

/-- Chunk 6 of the CSS constant (split only to keep kernel evaluation shallow; the concatenation equals the source string verbatim). -/
def cssChunk6 : String :=
  "text-align:left;\n\x7d\n.hero h1\x7b\n  margin:0;\n  font-size:30px;\n  letter-spacing:-0.03em;\n  line-height:1.18;\n\x7d\n.sub\x7bmargin:0; color:var(--muted); max-width:78ch; font-size:14px\x7d\n\nmain\x7b\n  max-width:var(--max);\n  margin:0 auto;\n  padding:22px 18px 46px;\n\x7d\n.card\x7b\n  background:var(--surface);\n  border:1px solid var(--line);\n  border-radius:var(--radius);\n  padding:18px;\n  box-shadow:var(--shadow);\n\x7d\n.img\x7b"

/-- Chunk 7 of the CSS constant (split only to keep kernel evaluation shallow; the concatenation equals the source string verbatim). -/
def cssChunk7 : String :=
  "\n  margin-top:14px;\n  border-radius:14px;\n  overflow:hidden;\n  border:1px solid var(--line);\n  background:var(--soft);\n  box-shadow:var(--shadow2);\n\x7d\n.img img\x7bdisplay:block; width:100%; height:auto\x7d\n\nh2\x7b\n  margin:18px 0 8px;\n  font-size:16px;\n  letter-spacing:-0.01em;\n\x7d\np\x7bmargin:0 0 10px\x7d\n.muted\x7bcolor:var(--muted); font-size:13px\x7d\nhr\x7bborder:0; border-top:1px solid var(--line); margin:18px 0\x7d\n\n.cit"

/-- Chunk 8 of the CSS constant (split only to keep kernel evaluation shallow; the concatenation equals the source string verbatim). -/
def cssChunk8 : String :=
  "y-grid\x7b\n  list-style:none;\n  padding:0;\n  margin:10px 0 0;\n  display:grid;\n  gap:10px;\n  grid-template-columns:repeat(auto-fit,minmax(180px,1fr));\n\x7d\n.city-grid a\x7b\n  display:block;\n  text-decoration:none;\n  color:var(--ink);\n  background:#fff;\n  border:1px solid var(--line);\n  border-radius:14px;\n  padding:12px 12px;\n  font-weight:800;\n  font-size:14px;\n  box-shadow:0 10px 24px rgba(17,24,39,0.05);"

/-- Chunk 9 of the CSS constant (split only to keep kernel evaluation shallow; the concatenation equals the source string verbatim). -/
def cssChunk9 : String :=
  "\n\x7d\n.city-grid a:hover\x7b\n  transform:translateY(-1px);\n  box-shadow:0 14px 28px rgba(17,24,39,0.08);\n\x7d\n\n.callout\x7b\n  margin:16px 0 12px;\n  padding:14px 14px;\n  border-radius:14px;\n  border:1px solid rgba(22,163,74,0.22);\n  background:linear-gradient(180deg, rgba(22,163,74,0.08), rgba(22,163,74,0.03));\n\x7d\n.callout-title\x7b\n  display:flex;\n  align-items:center;\n  gap:10px;\n  font-weight:900;\n  letter-spac"

/-- Chunk 10 of the CSS constant (split only to keep kernel evaluation shallow; the concatenation equals the source string verbatim). -/
def cssChunk10 : String :=
  "ing:-0.01em;\n  margin:0 0 6px;\n\x7d\n.badge\x7b\n  display:inline-block;\n  padding:3px 10px;\n  border-radius:999px;\n  background:rgba(22,163,74,0.14);\n  border:1px solid rgba(22,163,74,0.22);\n  color:var(--ink);\n  font-size:12px;\n  font-weight:900;\n\x7d\n.callout p\x7bmargin:0; color:var(--muted); font-size:13px\x7d\n\nfooter\x7b\n  border-top:1px solid var(--line);\n  background:#fbfbfa;\n\x7d\n.footer-inner\x7b\n  max-width:var("

/-- Chunk 11 of the CSS constant (split only to keep kernel evaluation shallow; the concatenation equals the source string verbatim). -/
def cssChunk11 : String :=
  "--max);\n  margin:0 auto;\n  padding:28px 18px;\n  display:grid;\n  gap:10px;\n  text-align:left;\n\x7d\n.footer-inner h2\x7bmargin:0; font-size:18px\x7d\n.footer-links\x7bdisplay:flex; gap:12px; flex-wrap:wrap\x7d\n.footer-links a\x7bcolor:var(--muted); text-decoration:none; font-size:13px; padding:6px 0\x7d\n.small\x7bcolor:var(--muted); font-size:12px; margin-top:8px\x7d"
/-- The CSS constant from generate.py (the concatenation of the chunks above,
character-for-character the source string after its `.strip()`). -/
def CSS : String :=
  cssChunk0 ++ cssChunk1 ++ cssChunk2 ++ cssChunk3 ++ cssChunk4 ++ cssChunk5 ++ cssChunk6 ++ cssChunk7 ++ cssChunk8 ++ cssChunk9 ++ cssChunk10 ++ cssChunk11


end SiteConfig

/-- The anchor markup emitted by `linkify_curly` before the link text, namely
an `a` element whose `href` is the site root `/`. -/
def anchorOpen : List Char := "<a href=\x22/\x22>".data

/-- The closing anchor markup. -/
def anchorClose : List Char := "</a>".data

/-- One-pass worker for `linkify_curly`, implementing the splice semantics of
iterating the regular expression that matches an opening curly brace, one or
more characters other than a closing curly brace, and a closing curly brace.
Outside a bracketed token (`acc = none`) characters are HTML-escaped; after an
opening brace the characters read so far are accumulated (reversed) in `acc`;
a closing brace with a nonempty accumulator yields an anchor around the
escaped token, an immediately following closing brace means the regex fails at
that opening brace (both braces are literal text, and the scan resumes after
them as the regex engine does), and a dangling opening brace at the end of the
input is literal text. -/
def linkGo : Option (List Char) → List Char → List Char
  | none, [] => []
  | none, c :: rest =>
    if c = lbrace then linkGo (some []) rest
    else escChar c ++ linkGo none rest
  | some acc, [] => escChar lbrace ++ escList acc.reverse
  | some acc, c :: rest =>
    if c = rbrace then
      if acc.isEmpty then escChar lbrace ++ escChar rbrace ++ linkGo none rest
      else anchorOpen ++ escList acc.reverse ++ anchorClose ++ linkGo none rest
    else linkGo (some (c :: acc)) rest

/-- `linkify_curly` from generate.py: replace each curly-bracketed token by a
link to the homepage whose visible text is the token, HTML-escaping all
text. -/
def linkify_curly (s : String) : String := ⟨linkGo none s.data⟩

/-- Python `sep.join(parts)`. -/
def joinSep (sep : String) : List String → String
  | [] => ""
  | [x] => x
  | x :: y :: rest => x ++ sep ++ joinSep sep (y :: rest)

/-- The `parts` list built by `make_section`: an `<h2>` part and a `<p>` part
for every `zip`-pair of a heading and a paragraph, in the supplied order. -/
def section_parts (headings paras : List String) : List String :=
  (headings.zip paras).flatMap
    (fun hp => ["<h2>" ++ esc hp.1 ++ "</h2>", "<p>" ++ linkify_curly hp.2 ++ "</p>"])

/-- `make_section` from generate.py: the parts joined by newlines. -/
def make_section (headings paras : List String) : String :=
  joinSep "\n" (section_parts headings paras)

/-- Python truncation toward zero, i.e. `int(q)` (the float multiplication
feeding it is modelled exactly by rational multiplication). -/
def pyInt (q : ℚ) : ℤ := q.num.tdiv q.den

/-- Worker for Python `str.replace`: scan left to right and at each position
splice in the replacement when the (nonempty) pattern matches, else keep the
character; `skip` counts characters still covered by the previous match, which
are dropped so occurrences never overlap. -/
def replaceAllGo (pat repl : List Char) (skip : ℕ) : List Char → List Char
  | [] => []
  | c :: rest =>
    match skip with
    | k + 1 => replaceAllGo pat repl k rest
    | 0 =>
      if pat.isPrefixOf (c :: rest) && !pat.isEmpty then
        repl ++ replaceAllGo pat repl (pat.length - 1) rest
      else c :: replaceAllGo pat repl 0 rest

/-- Python `s.replace(pat, repl)`: all occurrences, left to right,
non-overlapping. -/
def strReplace (s pat repl : String) : String :=
  ⟨replaceAllGo pat.data repl.data 0 s.data⟩

/-- The `cost_lo` string computed inside `location_cost_section`:
`f"$\x7bint(CONFIG.cost_low * col)\x7d"`. -/
def cost_lo_str (col : ℚ) : String :=
  "$" ++ toString (pyInt ((SiteConfig.cost_low : ℚ) * col))

/-- The `cost_hi` string computed inside `location_cost_section`:
`f"$\x7bint(CONFIG.cost_high * col)\x7d"`. -/
def cost_hi_str (col : ℚ) : String :=
  "$" ++ toString (pyInt ((SiteConfig.cost_high : ℚ) * col))

/-- `location_cost_section` from generate.py: substitute the named tokens in
the heading and paragraph templates, then emit the escaped `<h2>` and `<p>`
elements. -/
def location_cost_section (city state : String) (col : ℚ) : String :=
  let citySt := city ++ ", " ++ state
  let h2 := strReplace SiteConfig.location_cost_h2 "\x7bCity, State\x7d" citySt
  let p := strReplace (strReplace (strReplace SiteConfig.location_cost_p
              "\x7bCity, State\x7d" citySt)
              "\x7bcost_lo\x7d" (cost_lo_str col))
              "\x7bcost_hi\x7d" (cost_hi_str col)
  "<h2>" ++ esc h2 ++ "</h2>\n<p>" ++ esc p ++ "</p>"

/-- `city_title` from generate.py. -/
def city_title (city state : String) : String :=
  clamp_title (SiteConfig.h1_short ++ " in " ++ city ++ ", " ++ state) 70

example :
    linkify_curly "Call \x7bpoison ivy removal services\x7d today" =
      "Call <a href=\x22/\x22>poison ivy removal services</a> today" := by decide

/-- `int(q)` of an integer rational is that integer. -/
theorem pyInt_intCast (n : ℤ) : pyInt (n : ℚ) = n := by
  simp [pyInt, Rat.num_intCast, Rat.den_intCast, Int.tdiv_one]

/-- `int(q)` truncates toward zero; on nonnegative rationals this is the
floor. -/
theorem pyInt_eq_floor (q : ℚ) (h : 0 ≤ q) : pyInt q = ⌊q⌋ := by
  rw [Rat.floor_def, pyInt,
    Int.tdiv_eq_ediv (Rat.num_nonneg.mpr h) (by positivity)]

example : cost_lo_str 1 = "$300" := by
  have h : ((SiteConfig.cost_low : ℚ) * 1) = ((300 : ℤ) : ℚ) := by
    norm_num [SiteConfig.cost_low]
  rw [cost_lo_str, h, pyInt_intCast]; decide
example : cost_lo_str (3 / 2) = "$450" := by
  have h : ((SiteConfig.cost_low : ℚ) * (3 / 2)) = ((450 : ℤ) : ℚ) := by
    norm_num [SiteConfig.cost_low]
  rw [cost_lo_str, h, pyInt_intCast]; decide
example : cost_hi_str (3 / 2) = "$1800" := by
  have h : ((SiteConfig.cost_high : ℚ) * (3 / 2)) = ((1800 : ℤ) : ℚ) := by
    norm_num [SiteConfig.cost_high]
  rw [cost_hi_str, h, pyInt_intCast]; decide

/-! ### Slug-shape predicates and the specification's regular expression -/

/-- Every character is a lowercase alphanumeric or a hyphen. -/
def allSlug (l : List Char) : Bool := l.all (fun c => isLowerAlnum c || isHyph c)

/-- No two adjacent hyphens. -/
def noDH : List Char → Bool
  | [] => true
  | [_] => true
  | a :: b :: rest => !(isHyph a && isHyph b) && noDH (b :: rest)

/-- The first character, if any, does not satisfy `p`. -/
def headNot (p : Char → Bool) : List Char → Bool
  | [] => true
  | c :: _ => !p c

/-- The last character, if any, does not satisfy `p`. -/
def lastNot (p : Char → Bool) : List Char → Bool
  | [] => true
  | [c] => !p c
  | _ :: rest => lastNot p rest

theorem noDH_cons_cons (a b : Char) (rest : List Char) :
    noDH (a :: b :: rest) = (!(isHyph a && isHyph b) && noDH (b :: rest)) := rfl

/-- Deterministic matcher for the specification's regular expression
`^[a-z0-9]+(-[a-z0-9]+)*$`; `needAl` is true exactly when the next character
must be alphanumeric (at the start and right after a hyphen). -/
def slugReGo (needAl : Bool) : List Char → Bool
  | [] => !needAl
  | c :: rest =>
    if isHyph c then !needAl && slugReGo true rest
    else isLowerAlnum c && slugReGo false rest

/-- Whether a string matches `^[a-z0-9]+(-[a-z0-9]+)*$`. -/
def matchesSlugRe (s : String) : Bool := slugReGo true s.data

example : matchesSlugRe "austin-tx" = true := by decide
example : matchesSlugRe "-tx" = false := by decide
example : matchesSlugRe "" = false := by decide
example : matchesSlugRe "a--b" = false := by decide

/-! ### Basic facts about the predicates -/

theorem noDH_tail {a : Char} {l : List Char} (h : noDH (a :: l) = true) :
    noDH l = true := by
  cases l with
  | nil => rfl
  | cons b r => exact (Bool.and_eq_true_iff.mp h).2

theorem noDH_cons_of {a b : Char} {l : List Char} (h : noDH (a :: b :: l) = true) :
    (isHyph a && isHyph b) = false := by
  have h1 := (Bool.and_eq_true_iff.mp h).1
  rwa [Bool.not_eq_true'] at h1

theorem lastNot_cons {p : Char → Bool} {c : Char} {l : List Char} (h : l ≠ []) :
    lastNot p (c :: l) = lastNot p l := by
  cases l with
  | nil => exact absurd rfl h
  | cons d r => rfl

theorem headNot_of_all {p : Char → Bool} {l : List Char}
    (h : ∀ c ∈ l, p c = false) : headNot p l = true := by
  cases l with
  | nil => rfl
  | cons c r => simp [headNot, h c (List.mem_cons_self c r)]

theorem lastNot_of_all {p : Char → Bool} {l : List Char}
    (h : ∀ c ∈ l, p c = false) : lastNot p l = true := by
  induction l with
  | nil => rfl
  | cons c r ih =>
    cases r with
    | nil => simp [lastNot, h c (List.mem_cons_self c [])]
    | cons d r' =>
      rw [lastNot_cons (by simp)]
      exact ih (fun x hx => h x (List.mem_cons_of_mem c hx))

/-- A list whose characters are slug characters, with no double hyphen, no
leading hyphen and no trailing hyphen, matches the specification regex as
soon as it is nonempty. -/
theorem slugReGo_true_of :
    ∀ (l : List Char) (needAl : Bool), allSlug l = true → noDH l = true →
      lastNot isHyph l = true →
      (needAl = true → l ≠ [] ∧ headNot isHyph l = true) →
      slugReGo needAl l = true := by
  intro l
  induction l with
  | nil =>
    intro needAl _ _ _ hflag
    cases needAl with
    | false => rfl
    | true => exact absurd rfl (hflag rfl).1
  | cons c rest ih =>
    intro needAl hall hdh hlast hflag
    have hallc : (isLowerAlnum c || isHyph c) = true :=
      (List.all_eq_true.mp hall) c (List.mem_cons_self c rest)
    have halltail : allSlug rest = true :=
      List.all_eq_true.mpr fun x hx =>
        (List.all_eq_true.mp hall) x (List.mem_cons_of_mem c hx)
    by_cases hc : isHyph c = true
    · -- the character is a hyphen: the flag must be off, and the rest must
      -- start with an alphanumeric
      have hneed : needAl = false := by
        cases needAl with
        | false => rfl
        | true =>
          have := (hflag rfl).2
          simp [headNot, hc] at this
      subst hneed
      cases rest with
      | nil =>
        simp [lastNot, hc] at hlast
      | cons d r =>
        have hd : isHyph d = false := by
          have := noDH_cons_of hdh
          cases hda : isHyph d with
          | false => rfl
          | true => rw [hc, hda] at this; simp at this
        rw [slugReGo, if_pos hc]
        simp only [Bool.not_false, Bool.true_and]
        exact ih true halltail (noDH_tail hdh)
          (by rw [← lastNot_cons (l := d :: r) (c := c) (by simp)]; exact hlast)
          (fun _ => ⟨by simp, by simp [headNot, hd]⟩)
    · -- the character is alphanumeric
      have hc' : isHyph c = false := by
        cases hcc : isHyph c with
        | false => rfl
        | true => exact absurd hcc hc
      have hca : isLowerAlnum c = true := by
        rw [hc'] at hallc; simpa using hallc
      rw [slugReGo, if_neg hc, hca]
      simp only [Bool.true_and]
      refine ih false halltail (noDH_tail hdh) ?_ (by simp)
      cases rest with
      | nil => rfl
      | cons d r => rw [← lastNot_cons (l := d :: r) (c := c) (by simp)]; exact hlast

/-! ### The shape of `slugify` output -/

theorem isHyph_eq_false_of_alnum {c : Char} (h : isLowerAlnum c = true) :
    isHyph c = false := by
  cases hch : isHyph c with
  | false => rfl
  | true =>
    have hc' : c = '-' := by simpa [isHyph] using hch
    rw [hc'] at h
    exact absurd h (by decide)

theorem allSlug_subGo (l : List Char) : ∀ b, allSlug (subNonAlnumGo b l) = true := by
  induction l with
  | nil => intro b; rfl
  | cons c rest ih =>
    intro b
    by_cases hc : isLowerAlnum c = true
    · rw [subNonAlnumGo, if_pos hc]
      have h1 := ih false
      simp only [allSlug, List.all_cons] at h1 ⊢
      rw [hc, h1]; rfl
    · rw [subNonAlnumGo, if_neg hc]
      cases b with
      | true => simpa using ih true
      | false =>
        show allSlug ('-' :: subNonAlnumGo true rest) = true
        have h1 := ih true
        simp only [allSlug, List.all_cons] at h1 ⊢
        rw [h1]
        decide

theorem headNot_subGo_true (l : List Char) :
    headNot isHyph (subNonAlnumGo true l) = true := by
  induction l with
  | nil => rfl
  | cons c rest ih =>
    by_cases hc : isLowerAlnum c = true
    · rw [subNonAlnumGo, if_pos hc]
      simp [headNot, isHyph_eq_false_of_alnum hc]
    · rw [subNonAlnumGo, if_neg hc]
      exact ih

theorem noDH_subGo (l : List Char) : ∀ b, noDH (subNonAlnumGo b l) = true := by
  induction l with
  | nil => intro b; rfl
  | cons c rest ih =>
    intro b
    by_cases hc : isLowerAlnum c = true
    · rw [subNonAlnumGo, if_pos hc]
      have h1 := ih false
      have hc' := isHyph_eq_false_of_alnum hc
      cases hgo : subNonAlnumGo false rest with
      | nil => rfl
      | cons d r =>
        rw [hgo] at h1
        rw [noDH_cons_cons]
        simp [hc', h1]
    · rw [subNonAlnumGo, if_neg hc]
      cases b with
      | true => exact ih true
      | false =>
        have h1 := ih true
        have h2 := headNot_subGo_true rest
        cases hgo : subNonAlnumGo true rest with
        | nil => rfl
        | cons d r =>
          rw [hgo] at h1 h2
          simp only [headNot] at h2
          have hd : isHyph d = false := by rwa [Bool.not_eq_true'] at h2
          show noDH ('-' :: d :: r) = true
          rw [noDH_cons_cons]
          simp [hd, h1]

theorem collapseGo_eq_self (l : List Char) (hdh : noDH l = true) :
    collapseGo false l = l ∧
      (headNot isHyph l = true → collapseGo true l = l) := by
  induction l with
  | nil => exact ⟨rfl, fun _ => rfl⟩
  | cons c rest ih =>
    obtain ⟨ih1, ih2⟩ := ih (noDH_tail hdh)
    by_cases hc : c = '-'
    · subst hc
      have hrest : collapseGo true rest = rest := by
        cases rest with
        | nil => rfl
        | cons d r =>
          have hd := noDH_cons_of hdh
          simp only [isHyph] at hd
          have hd' : isHyph d = false := by
            simpa [isHyph] using hd
          exact ih2 (by simp [headNot, hd'])
      constructor
      · rw [collapseGo, if_pos rfl]
        simp [hrest]
      · intro habs
        simp [headNot, isHyph] at habs
    · constructor
      · rw [collapseGo, if_neg hc, ih1]
      · intro _
        rw [collapseGo, if_neg hc, ih1]

theorem collapseHyphens_eq_self {l : List Char} (hdh : noDH l = true) :
    collapseHyphens l = l := (collapseGo_eq_self l hdh).1

theorem all_dropWhile {p q : Char → Bool} {l : List Char} (h : l.all q = true) :
    (l.dropWhile p).all q = true := by
  induction l with
  | nil => rfl
  | cons c rest ih =>
    rw [List.dropWhile_cons]
    simp only [List.all_cons, Bool.and_eq_true] at h
    by_cases hp : p c = true
    · rw [if_pos hp]; exact ih h.2
    · rw [if_neg hp]
      simp [List.all_cons, h.1, h.2]

theorem noDH_dropWhile {p : Char → Bool} {l : List Char} (h : noDH l = true) :
    noDH (l.dropWhile p) = true := by
  induction l with
  | nil => rfl
  | cons c rest ih =>
    rw [List.dropWhile_cons]
    by_cases hp : p c = true
    · rw [if_pos hp]; exact ih (noDH_tail h)
    · rw [if_neg hp]; exact h

theorem headNot_dropWhile (p : Char → Bool) (l : List Char) :
    headNot p (l.dropWhile p) = true := by
  induction l with
  | nil => rfl
  | cons c rest ih =>
    rw [List.dropWhile_cons]
    by_cases hp : p c = true
    · rw [if_pos hp]; exact ih
    · rw [if_neg hp]
      have hp' : p c = false := by
        cases hpc : p c with
        | false => rfl
        | true => exact absurd hpc hp
      simp [headNot, hp']

theorem dropTrailing_cons (p : Char → Bool) (c : Char) (rest : List Char) :
    dropTrailing p (c :: rest) = [] ∨
      dropTrailing p (c :: rest) = c :: dropTrailing p rest := by
  rw [dropTrailing]
  split
  · exact Or.inl rfl
  · exact Or.inr rfl

theorem all_dropTrailing {p q : Char → Bool} {l : List Char} (h : l.all q = true) :
    (dropTrailing p l).all q = true := by
  induction l with
  | nil => rfl
  | cons c rest ih =>
    simp only [List.all_cons, Bool.and_eq_true] at h
    rcases dropTrailing_cons p c rest with heq | heq <;> rw [heq]
    · rfl
    · simp [List.all_cons, h.1, ih h.2]

theorem noDH_dropTrailing {p : Char → Bool} {l : List Char} (h : noDH l = true) :
    noDH (dropTrailing p l) = true := by
  induction l with
  | nil => rfl
  | cons c rest ih =>
    rcases dropTrailing_cons p c rest with heq | heq <;> rw [heq]
    · rfl
    · have ihr := ih (noDH_tail h)
      cases hr : dropTrailing p rest with
      | nil => rfl
      | cons d r' =>
        rw [hr] at ihr
        cases rest with
        | nil => simp [dropTrailing] at hr
        | cons e rest' =>
          have hde : e = d := by
            rcases dropTrailing_cons p e rest' with h2 | h2 <;> rw [h2] at hr
            · exact absurd hr (by simp)
            · injection hr with h3 h4
          subst hde
          rw [noDH_cons_cons]
          have hpair := noDH_cons_of h
          simp [hpair, ihr]

theorem headNot_dropTrailing {q p : Char → Bool} {l : List Char}
    (h : headNot q l = true) : headNot q (dropTrailing p l) = true := by
  cases l with
  | nil => rfl
  | cons c rest =>
    rcases dropTrailing_cons p c rest with heq | heq <;> rw [heq]
    · rfl
    · exact h

theorem lastNot_dropTrailing (p : Char → Bool) (l : List Char) :
    lastNot p (dropTrailing p l) = true := by
  induction l with
  | nil => rfl
  | cons c rest ih =>
    rw [dropTrailing]
    split
    · rfl
    · next hguard =>
      cases hr : dropTrailing p rest with
      | nil =>
        have hpc : p c = false := by
          rw [hr] at hguard
          simpa using hguard
        simp [lastNot, hpc]
      | cons d r' =>
        rw [lastNot_cons (by simp)]
        rw [← hr]
        exact ih

/-- The slug pipeline always produces a list of slug characters with no
double, leading, or trailing hyphen. -/
theorem slugifyList_props (l : List Char) :
    allSlug (slugifyList l) = true ∧ noDH (slugifyList l) = true ∧
      headNot isHyph (slugifyList l) = true ∧
      lastNot isHyph (slugifyList l) = true := by
  unfold slugifyList subNonAlnum
  rw [collapseHyphens_eq_self (noDH_subGo _ false)]
  unfold stripChars
  refine ⟨all_dropTrailing (all_dropWhile (allSlug_subGo _ false)),
    noDH_dropTrailing (noDH_dropWhile (noDH_subGo _ false)),
    headNot_dropTrailing (headNot_dropWhile isHyph _),
    lastNot_dropTrailing isHyph _⟩

/-! ### Slugs match the specification regex; `city_state_slug` -/

theorem matchesSlugRe_slugify (s : String) (h : slugify s ≠ "") :
    matchesSlugRe (slugify s) = true := by
  obtain ⟨h1, h2, h3, h4⟩ := slugifyList_props s.data
  have hne : slugifyList s.data ≠ [] := fun habs => h (congrArg String.mk habs)
  exact slugReGo_true_of _ true h1 h2 h4 (fun _ => ⟨hne, h3⟩)

theorem lastNot_append {p : Char → Bool} (y1 : List Char) {y2 : List Char}
    (h : y2 ≠ []) : lastNot p (y1 ++ y2) = lastNot p y2 := by
  induction y1 with
  | nil => rfl
  | cons c y1' ih =>
    rw [List.cons_append,
      lastNot_cons (fun habs => h (List.append_eq_nil.mp habs).2)]
    exact ih

theorem headNot_append {p : Char → Bool} {y1 : List Char} (y2 : List Char)
    (h : headNot p y1 = true) (hne : y1 ≠ []) : headNot p (y1 ++ y2) = true := by
  cases y1 with
  | nil => exact absurd rfl hne
  | cons c r => exact h

theorem noDH_append_hyphen {y2 : List Char} (h3 : noDH y2 = true)
    (h4 : headNot isHyph y2 = true) :
    ∀ y1, noDH y1 = true → lastNot isHyph y1 = true →
      noDH (y1 ++ '-' :: y2) = true := by
  intro y1
  induction y1 with
  | nil =>
    intro _ _
    cases y2 with
    | nil => rfl
    | cons d r =>
      rw [List.nil_append, noDH_cons_cons]
      simp only [headNot] at h4
      have hd : isHyph d = false := by rwa [Bool.not_eq_true'] at h4
      simp [hd, h3]
  | cons c y1' ih =>
    intro h1 h2
    cases y1' with
    | nil =>
      simp only [lastNot] at h2
      have hc : isHyph c = false := by rwa [Bool.not_eq_true'] at h2
      have hr := ih rfl rfl
      rw [List.nil_append] at hr
      rw [List.cons_append, List.nil_append, noDH_cons_cons]
      simp [hc, hr]
    | cons d r =>
      have hpair := noDH_cons_of h1
      have hr := ih (noDH_tail h1) (by rwa [lastNot_cons (by simp)] at h2)
      rw [List.cons_append, List.cons_append, noDH_cons_cons]
      rw [List.cons_append] at hr
      simp [hpair, hr]

theorem city_state_slug_data (city state : String) :
    (city_state_slug city state).data =
      slugifyList city.data ++ '-' :: slugifyList state.data := by
  show (slugify city ++ "-" ++ slugify state).data = _
  rw [String.data_append, String.data_append]
  show slugifyList city.data ++ ['-'] ++ slugifyList state.data = _
  rw [List.append_assoc]
  rfl

theorem matchesSlugRe_city_state (city state : String)
    (h1 : slugify city ≠ "") (h2 : slugify state ≠ "") :
    matchesSlugRe (city_state_slug city state) = true := by
  obtain ⟨a1, a2, a3, a4⟩ := slugifyList_props city.data
  obtain ⟨b1, b2, b3, b4⟩ := slugifyList_props state.data
  have hne1 : slugifyList city.data ≠ [] := fun habs => h1 (congrArg String.mk habs)
  have hne2 : slugifyList state.data ≠ [] := fun habs => h2 (congrArg String.mk habs)
  show slugReGo true (city_state_slug city state).data = true
  rw [city_state_slug_data]
  apply slugReGo_true_of
  · simp only [allSlug, List.all_append, List.all_cons, Bool.and_eq_true]
    refine ⟨?_, by decide, ?_⟩
    · simpa [allSlug] using a1
    · simpa [allSlug] using b1
  · exact noDH_append_hyphen b2 b3 _ a2 a4
  · rw [lastNot_append _ (by simp), lastNot_cons hne2]
    exact b4
  · intro _
    refine ⟨fun habs => hne1 (List.append_eq_nil.mp habs).1, ?_⟩
    exact headNot_append _ a3 hne1

/-! ### `slugify` is the identity on its own output -/

theorem alnum_ne {c d : Char} (h : isLowerAlnum c = true)
    (hd : isLowerAlnum d = false) : c ≠ d := by
  intro he
  subst he
  rw [h] at hd
  cases hd

theorem slugChar_not_space {c : Char} (h : (isLowerAlnum c || isHyph c) = true) :
    pyIsSpace c = false := by
  rcases Bool.or_eq_true_iff.mp h with ha | hh
  · simp only [pyIsSpace, Bool.or_eq_false_iff, beq_eq_false_iff_ne]
    exact ⟨⟨⟨⟨⟨alnum_ne ha (by decide), alnum_ne ha (by decide)⟩,
      alnum_ne ha (by decide)⟩, alnum_ne ha (by decide)⟩,
      alnum_ne ha (by decide)⟩, alnum_ne ha (by decide)⟩
  · have hc : c = '-' := by simpa [isHyph] using hh
    subst hc
    decide

theorem slugChar_toLower {c : Char} (h : (isLowerAlnum c || isHyph c) = true) :
    Char.toLower c = c := by
  rcases Bool.or_eq_true_iff.mp h with ha | hh
  · simp only [isLowerAlnum, Bool.or_eq_true, Bool.and_eq_true,
      decide_eq_true_eq] at ha
    simp only [Char.toLower]
    rw [if_neg (by omega)]
  · have hc : c = '-' := by simpa [isHyph] using hh
    subst hc
    decide

theorem slugChar_ne_amp {c : Char} (h : (isLowerAlnum c || isHyph c) = true) :
    c ≠ '&' := by
  rcases Bool.or_eq_true_iff.mp h with ha | hh
  · exact alnum_ne ha (by decide)
  · have hc : c = '-' := by simpa [isHyph] using hh
    subst hc
    decide

theorem dropWhile_eq_self {p : Char → Bool} {l : List Char}
    (h : headNot p l = true) : l.dropWhile p = l := by
  cases l with
  | nil => rfl
  | cons c r =>
    simp only [headNot] at h
    have hpc : p c = false := by rwa [Bool.not_eq_true'] at h
    rw [List.dropWhile_cons, if_neg (by simp [hpc])]

theorem dropTrailing_eq_self {p : Char → Bool} :
    ∀ {l : List Char}, lastNot p l = true → dropTrailing p l = l := by
  intro l
  induction l with
  | nil => intro _; rfl
  | cons c rest ih =>
    intro h
    cases rest with
    | nil =>
      simp only [lastNot] at h
      have hpc : p c = false := by rwa [Bool.not_eq_true'] at h
      simp [dropTrailing, hpc]
    | cons d r =>
      have hr := ih (by rwa [lastNot_cons (by simp)] at h)
      rw [dropTrailing, hr]
      simp

theorem stripChars_eq_self {p : Char → Bool} {l : List Char}
    (h1 : headNot p l = true) (h2 : lastNot p l = true) : stripChars p l = l := by
  rw [stripChars, dropWhile_eq_self h1, dropTrailing_eq_self h2]

theorem map_toLower_eq_self {l : List Char} (h : allSlug l = true) :
    l.map Char.toLower = l := by
  induction l with
  | nil => rfl
  | cons c rest ih =>
    simp only [allSlug, List.all_cons, Bool.and_eq_true] at h
    rw [List.map_cons, slugChar_toLower h.1, ih h.2]

theorem ampExpand_eq_self {l : List Char} (h : allSlug l = true) :
    ampExpand l = l := by
  induction l with
  | nil => rfl
  | cons c rest ih =>
    simp only [allSlug, List.all_cons, Bool.and_eq_true] at h
    rw [ampExpand, List.flatMap_cons, if_neg (slugChar_ne_amp h.1)]
    have := ih h.2
    rw [ampExpand] at this
    rw [this]
    rfl

theorem subGo_eq_self :
    ∀ l, allSlug l = true → noDH l = true → lastNot isHyph l = true →
      (subNonAlnumGo false l = l ∧
        (headNot isHyph l = true → subNonAlnumGo true l = l)) := by
  intro l
  induction l with
  | nil => exact fun _ _ _ => ⟨rfl, fun _ => rfl⟩
  | cons c rest ih =>
    intro hall hdh hlast
    have hallc : (isLowerAlnum c || isHyph c) = true :=
      (List.all_eq_true.mp hall) c (List.mem_cons_self c rest)
    have halltail : allSlug rest = true :=
      List.all_eq_true.mpr fun x hx =>
        (List.all_eq_true.mp hall) x (List.mem_cons_of_mem c hx)
    by_cases hc : isLowerAlnum c = true
    · have hlasttail : lastNot isHyph rest = true := by
        cases rest with
        | nil => rfl
        | cons d r => rwa [lastNot_cons (by simp)] at hlast
      have hr := (ih halltail (noDH_tail hdh) hlasttail).1
      constructor
      · rw [subNonAlnumGo, if_pos hc, hr]
      · intro _
        rw [subNonAlnumGo, if_pos hc, hr]
    · have hch : isHyph c = true := by
        cases hcc : isHyph c with
        | true => rfl
        | false => rw [hcc] at hallc; simp [hc] at hallc
      have hceq : c = '-' := by simpa [isHyph] using hch
      constructor
      · cases rest with
        | nil => simp [lastNot, hch] at hlast
        | cons d r =>
          have hd : isHyph d = false := by
            have := noDH_cons_of hdh
            cases hda : isHyph d with
            | false => rfl
            | true => rw [hch, hda] at this; simp at this
          have hr := (ih halltail (noDH_tail hdh)
            (by rwa [lastNot_cons (by simp)] at hlast)).2 (by simp [headNot, hd])
          rw [subNonAlnumGo, if_neg hc]
          show '-' :: subNonAlnumGo true (d :: r) = c :: d :: r
          rw [hr, hceq]
      · intro habs
        simp [headNot, hch] at habs

/-- Re-slugging the output of `slugify` leaves it unchanged. -/
theorem slugifyList_idem (l : List Char) :
    slugifyList (slugifyList l) = slugifyList l := by
  obtain ⟨h1, h2, h3, h4⟩ := slugifyList_props l
  have hmem : ∀ c ∈ slugifyList l, (isLowerAlnum c || isHyph c) = true :=
    List.all_eq_true.mp h1
  have hspace : ∀ c ∈ slugifyList l, pyIsSpace c = false :=
    fun c hc => slugChar_not_space (hmem c hc)
  show slugifyList (slugifyList l) = slugifyList l
  rw [slugifyList]
  rw [stripChars_eq_self (headNot_of_all hspace) (lastNot_of_all hspace)]
  rw [map_toLower_eq_self h1, ampExpand_eq_self h1]
  rw [show subNonAlnum (slugifyList l) = subNonAlnumGo false (slugifyList l) from rfl]
  rw [(subGo_eq_self _ h1 h2 h4).1]
  rw [collapseHyphens_eq_self h2]
  exact stripChars_eq_self h3 h4

/-! ### `clamp_title` -/

theorem dropTrailing_length_le (p : Char → Bool) (l : List Char) :
    (dropTrailing p l).length ≤ l.length := by
  induction l with
  | nil => exact Nat.le_refl _
  | cons c rest ih =>
    rw [dropTrailing]
    split
    · exact Nat.zero_le _
    · simpa using Nat.succ_le_succ ih

theorem rstrip_idem (l : List Char) : rstrip (rstrip l) = rstrip l :=
  dropTrailing_eq_self (lastNot_dropTrailing pyIsSpace l)

theorem pySlice_nonneg {n : ℤ} (h : 0 ≤ n) (l : List Char) :
    pySlice n l = l.take n.toNat := by
  rw [pySlice, if_neg (by omega)]

/-- On a limit of at least one, `clamp_title` keeps short titles, truncates
long ones to the first `max_chars - 1` characters followed by an ellipsis
after stripping trailing whitespace, and never exceeds the limit. -/
theorem clamp_title_spec (title : String) (m : ℤ) (hm : 1 ≤ m) :
    ((title.length : ℤ) ≤ m → clamp_title title m = title) ∧
      (m < (title.length : ℤ) → clamp_title title m =
        ⟨rstrip (title.data.take (m - 1).toNat) ++ [hellip]⟩) ∧
      ((clamp_title title m).length : ℤ) ≤ m := by
  refine ⟨fun hle => by rw [clamp_title, if_pos hle], fun hgt => ?_, ?_⟩
  · rw [clamp_title, if_neg (by omega), pySlice_nonneg (by omega)]
  · by_cases hle : (title.length : ℤ) ≤ m
    · rw [clamp_title, if_pos hle]
      exact hle
    · rw [clamp_title, if_neg hle, pySlice_nonneg (by omega)]
      show ((rstrip (title.data.take (m - 1).toNat) ++ [hellip]).length : ℤ) ≤ m
      rw [List.length_append, List.length_singleton]
      have h1 := dropTrailing_length_le pyIsSpace (title.data.take (m - 1).toNat)
      have h2 : (title.data.take (m - 1).toNat).length ≤ (m - 1).toNat := by
        rw [List.length_take]
        exact Nat.min_le_left _ _
      have h3 : ((m - 1).toNat : ℤ) = m - 1 := Int.toNat_of_nonneg (by omega)
      have : (rstrip (title.data.take (m - 1).toNat)).length ≤ (m - 1).toNat :=
        le_trans (by exact h1) h2
      simp only [rstrip] at this ⊢
      omega

/-- The lower bound `1 ≤ m` in `clamp_title_spec` is inhabited. -/
theorem clamp_title_spec_sanity :
    clamp_title "abcdef" 3 = String.mk ['a', 'b', hellip] ∧
      clamp_title "ab" 3 = "ab" := by
  constructor <;> decide

/-- Clamping twice at the same nonnegative limit is the same as clamping
once. -/
theorem clamp_title_idem (title : String) (m : ℤ) (hm : 0 ≤ m) :
    clamp_title (clamp_title title m) m = clamp_title title m := by
  by_cases hle : (title.length : ℤ) ≤ m
  · have h0 : clamp_title title m = title := by rw [clamp_title, if_pos hle]
    rw [h0]
    exact h0
  · have hr : clamp_title title m =
        ⟨rstrip (pySlice (m - 1) title.data) ++ [hellip]⟩ := by
      rw [clamp_title, if_neg hle]
    by_cases hm1 : 1 ≤ m
    · -- the clamped result is within the limit, so the second clamp keeps it
      have hlen := (clamp_title_spec title m hm1).2.2
      conv_lhs => rw [clamp_title]
      rw [if_pos hlen]
    · -- the limit is zero: the second clamp strips exactly the ellipsis again
      have hm0 : m = 0 := by omega
      subst hm0
      have hlen : ¬ (((clamp_title title 0).length : ℤ) ≤ 0) := by
        rw [hr]
        show ¬ (((rstrip (pySlice (0 - 1) title.data) ++ [hellip]).length : ℤ) ≤ 0)
        rw [List.length_append]
        simp
      conv_lhs => rw [clamp_title]
      rw [if_neg hlen, hr]
      congr 1
      show rstrip (pySlice (0 - 1)
          (rstrip (pySlice (0 - 1) title.data) ++ [hellip])) ++ [hellip] =
        rstrip (pySlice (0 - 1) title.data) ++ [hellip]
      have hslice : pySlice (0 - 1)
          (rstrip (pySlice (0 - 1) title.data) ++ [hellip]) =
          rstrip (pySlice (0 - 1) title.data) := by
        rw [pySlice, if_pos (by omega)]
        have h1 : ((rstrip (pySlice (0 - 1) title.data) ++ [hellip]).length -
            (-(0 - 1 : ℤ)).toNat) = (rstrip (pySlice (0 - 1) title.data)).length := by
          rw [List.length_append]
          norm_num
        rw [h1]
        exact List.take_left _ _
      rw [hslice, rstrip_idem]

/-! ### `linkify_curly`: generic bracketed tokens become homepage anchors -/

theorem linkGo_accum (word : List Char) (hwr : rbrace ∉ word) :
    ∀ acc post, linkGo (some acc) (word ++ rbrace :: post) =
      if (word.reverse ++ acc).isEmpty then
        escChar lbrace ++ escChar rbrace ++ linkGo none post
      else anchorOpen ++ escList (acc.reverse ++ word) ++ anchorClose ++
        linkGo none post := by
  induction word with
  | nil =>
    intro acc post
    rw [List.nil_append, linkGo, if_pos rfl]
    simp only [List.reverse_nil, List.nil_append, List.append_nil]
  | cons c w' ih =>
    intro acc post
    have hc : c ≠ rbrace := fun habs => hwr (habs ▸ List.mem_cons_self c w')
    rw [List.cons_append, linkGo, if_neg hc]
    rw [ih (fun habs => hwr (List.mem_cons_of_mem c habs)) (c :: acc) post]
    have harr : w'.reverse ++ c :: acc = (c :: w').reverse ++ acc := by
      rw [List.reverse_cons, List.append_assoc]
      rfl
    have harr2 : (c :: acc).reverse ++ w' = acc.reverse ++ c :: w' := by
      rw [List.reverse_cons, List.append_assoc]
      rfl
    rw [harr, harr2]

/-- Any bracketed token whose body is nonempty and brace-free, preceded by
text without an opening brace, is rendered as a homepage anchor around the
escaped token, with the surrounding text escaped. -/
theorem linkGo_token (pre word post : List Char)
    (hpre : lbrace ∉ pre) (hw : word ≠ []) (hwr : rbrace ∉ word) :
    linkGo none (pre ++ lbrace :: (word ++ rbrace :: post)) =
      escList pre ++ (anchorOpen ++ (escList word ++ (anchorClose ++
        linkGo none post))) := by
  induction pre with
  | nil =>
    rw [List.nil_append, linkGo, if_pos rfl, linkGo_accum word hwr [] post]
    rw [if_neg (by simpa using hw)]
    simp [escList]
  | cons c pre' ih =>
    have hc : c ≠ lbrace := fun habs => hpre (habs ▸ List.mem_cons_self c pre')
    rw [List.cons_append, linkGo, if_neg hc]
    rw [ih (fun habs => hpre (List.mem_cons_of_mem c habs))]
    show escChar c ++ _ = escList (c :: pre') ++ _
    rw [show escList (c :: pre') = escChar c ++ escList pre' from rfl]
    simp [List.append_assoc]

/-- Named evaluations of the cost strings (the rational arithmetic is done
by `norm_num`, after which the integer renders by computation). -/
theorem cost_lo_str_one : cost_lo_str 1 = "$300" := by
  have h : ((SiteConfig.cost_low : ℚ) * 1) = ((300 : ℤ) : ℚ) := by
    norm_num [SiteConfig.cost_low]
  rw [cost_lo_str, h, pyInt_intCast]; decide

theorem cost_hi_str_one : cost_hi_str 1 = "$1200" := by
  have h : ((SiteConfig.cost_high : ℚ) * 1) = ((1200 : ℤ) : ℚ) := by
    norm_num [SiteConfig.cost_high]
  rw [cost_hi_str, h, pyInt_intCast]; decide

theorem cost_lo_str_mul15 : cost_lo_str (3 / 2) = "$450" := by
  have h : ((SiteConfig.cost_low : ℚ) * (3 / 2)) = ((450 : ℤ) : ℚ) := by
    norm_num [SiteConfig.cost_low]
  rw [cost_lo_str, h, pyInt_intCast]; decide

theorem cost_hi_str_mul15 : cost_hi_str (3 / 2) = "$1800" := by
  have h : ((SiteConfig.cost_high : ℚ) * (3 / 2)) = ((1800 : ℤ) : ℚ) := by
    norm_num [SiteConfig.cost_high]
  rw [cost_hi_str, h, pyInt_intCast]; decide

set_option maxRecDepth 100000 in
/-- The fully substituted location cost section for Austin, TX at
multiplier 1. -/
theorem location_cost_section_austin :
    location_cost_section "Austin" "TX" 1 =
      "<h2>" ++ esc (strReplace SiteConfig.location_cost_h2
          "\x7bCity, State\x7d" ("Austin" ++ ", " ++ "TX")) ++ "</h2>\n<p>" ++
        esc (strReplace (strReplace (strReplace SiteConfig.location_cost_p
          "\x7bCity, State\x7d" ("Austin" ++ ", " ++ "TX"))
          "\x7bcost_lo\x7d" "$300")
          "\x7bcost_hi\x7d" "$1200") ++ "</p>" := by
  simp only [location_cost_section]
  rw [cost_lo_str_one, cost_hi_str_one]

set_option maxRecDepth 100000 in
example :
    ("\x7bview our poison ivy removal cost guide\x7d".data <:+:
      (location_cost_section "Austin" "TX" 1).data) ∧
    ¬ ("<a".data <:+: (location_cost_section "Austin" "TX" 1).data) := by
  rw [location_cost_section_austin]
  constructor <;> decide

/-! ### Page assembly -/

/-- Python `s.rstrip()` on strings. -/
def pyRstrip (s : String) : String := ⟨rstrip s.data⟩

/-- The inner `item` helper of `nav_html`. -/
def nav_item (current href label key : String) : String :=
  "<a href=\x22" ++ esc href ++ "\x22" ++
    (if current = key then " aria-current=\x22page\x22" else "") ++
    ">" ++ esc label ++ "</a>"

/-- `nav_html` from generate.py. -/
def nav_html (current : String) : String :=
  "<nav class=\x22nav\x22 aria-label=\x22Primary navigation\x22>" ++
    nav_item current "/" "Home" "home" ++
    nav_item current "/cost/" "Cost" "cost" ++
    nav_item current "/how-to/" "How-To" "howto" ++
    "<a class=\x22btn\x22 href=\x22" ++ esc SiteConfig.cta_href ++ "\x22>" ++
    esc SiteConfig.cta_text ++ "</a>" ++
    "</nav>"

/-- `base_html` from generate.py. -/
def base_html (title canonical_path current_nav body : String) : String :=
  "<!doctype html>\n<html lang=\x22en\x22>\n<head>\n  <meta charset=\x22utf-8\x22 />\n  <meta name=\x22viewport\x22 content=\x22width=device-width, initial-scale=1\x22 />\n  <title>" ++
    esc title ++
    "</title>\n  <link rel=\x22canonical\x22 href=\x22" ++
    esc canonical_path ++
    "\x22 />\n  <style>\n" ++
    SiteConfig.CSS ++
    "\n  </style>\n</head>\n<body>\n  <div class=\x22topbar\x22>\n    <div class=\x22topbar-inner\x22>\n      <a class=\x22brand\x22 href=\x22/\x22>" ++
    esc SiteConfig.brand_name ++
    "</a>\n      " ++
    nav_html current_nav ++
    "\n    </div>\n  </div>\n" ++
    body ++
    "\n</body>\n</html>\n"

/-- `header_block` from generate.py (its template ends with a newline that
`.rstrip()` removes). -/
def header_block (h1 sub : String) : String :=
  pyRstrip ("\n<header>\n  <div class=\x22hero\x22>\n    <h1>" ++ esc h1 ++
    "</h1>\n    <p class=\x22sub\x22>" ++ esc sub ++ "</p>\n  </div>\n</header>\n")

/-- `footer_block` from generate.py. -/
def footer_block : String :=
  pyRstrip ("\n<footer>\n  <div class=\x22footer-inner\x22>\n    <h2>Next steps</h2>\n    <p class=\x22sub\x22>Ready to move forward? Request a free quote.</p>\n    <div>\n      <a class=\x22btn\x22 href=\x22" ++
    esc SiteConfig.cta_href ++ "\x22>" ++ esc SiteConfig.cta_text ++
    "</a>\n    </div>\n    <div class=\x22footer-links\x22>\n      <a href=\x22/\x22>Home</a>\n      <a href=\x22/cost/\x22>Cost</a>\n      <a href=\x22/how-to/\x22>How-To</a>\n    </div>\n    <div class=\x22small\x22>© " ++
    esc SiteConfig.brand_name ++ ". All rights reserved.</div>\n  </div>\n</footer>\n")

/-- `page_shell` from generate.py. -/
def page_shell (h1 sub inner_html : String) : String :=
  pyRstrip (header_block h1 sub ++
    "\n<main>\n  <section class=\x22card\x22>\n    <div class=\x22img\x22>\n      <img src=\x22" ++
    esc ("/" ++ SiteConfig.image_filename) ++
    "\x22 alt=\x22Service image\x22 loading=\x22lazy\x22 />\n    </div>\n    " ++
    inner_html ++
    "\n  </section>\n</main>\n" ++
    footer_block)

/-- `make_page` from generate.py: the H1 is clamped at 70 characters, and the
title metadata is set to exactly that clamped H1. -/
def make_page (h1 canonical nav_key sub inner : String) : String :=
  base_html (clamp_title h1 70) canonical nav_key
    (page_shell (clamp_title h1 70) sub inner)

/-- A city record: name, state, cost-of-living multiplier (a Python float,
modelled as a rational). -/
abbrev CityWithCol := String × String × ℚ

/-- One entry of the homepage city grid. -/
def city_link_item (c : CityWithCol) : String :=
  "<li><a href=\x22" ++ esc ("/" ++ city_state_slug c.1 c.2.1 ++ "/") ++
    "\x22>" ++ esc c.1 ++ ", " ++ esc c.2.1 ++ "</a></li>"

/-- `homepage_html` from generate.py, parameterized by the loaded city list
(the script reads it from `cities.csv` at import time). -/
def homepage_html (cities : List CityWithCol) : String :=
  make_page SiteConfig.h1_title "/" "home" SiteConfig.h1_sub
    (make_section SiteConfig.main_h2 SiteConfig.main_p ++
      "\n<hr />\n<h2>Choose your city</h2>\n<p class=\x22muted\x22>We provide services nationwide, including in the following cities:</p>\n<ul class=\x22city-grid\x22>\n" ++
      joinSep "\n" (cities.map city_link_item) ++
      "\n</ul>\n<hr />\n<p class=\x22muted\x22>\n  Also available: <a href=\x22/cost/\x22>" ++
      esc SiteConfig.cost_title ++ "</a> and <a href=\x22/how-to/\x22>" ++
      esc SiteConfig.howto_title ++ "</a>.\n</p>\n")

/-- `city_page_html` from generate.py. -/
def city_page_html (city state : String) (col : ℚ) : String :=
  make_page (city_title city state) ("/" ++ city_state_slug city state ++ "/")
    "home" SiteConfig.h1_sub
    (location_cost_section city state col ++
      make_section SiteConfig.main_h2 SiteConfig.main_p)

/-- `cost_page_html` from generate.py. -/
def cost_page_html : String :=
  make_page SiteConfig.cost_title "/cost/" "cost" SiteConfig.cost_sub
    (make_section SiteConfig.cost_h2 SiteConfig.cost_p)

/-- `howto_page_html` from generate.py. -/
def howto_page_html : String :=
  make_page SiteConfig.howto_title "/how-to/" "howto" SiteConfig.howto_sub
    (make_section SiteConfig.howto_h2 SiteConfig.howto_p)

/-- `robots_txt` from generate.py. -/
def robots_txt : String := "User-agent: *\nAllow: /\nSitemap: /sitemap.xml\n"

/-- Concatenation of a list of strings (Python `"".join`). -/
def concatAll : List String → String
  | [] => ""
  | s :: rest => s ++ concatAll rest

/-- One `<url><loc>` entry of the sitemap. -/
def sitemap_entry (u : String) : String :=
  "  <url><loc>" ++ u ++ "</loc></url>\n"

/-- `sitemap_xml` from generate.py. -/
def sitemap_xml (urls : List String) : String :=
  "<?xml version=\x221.0\x22 encoding=\x22UTF-8\x22?>\n<urlset xmlns=\x22http://www.sitemaps.org/schemas/sitemap/0.9\x22>\n" ++
    concatAll (urls.map sitemap_entry) ++
    "</urlset>\n"

/-- The canonical-path list assembled in `main`: the three fixed pages, then
one path per city. -/
def siteUrls (cities : List CityWithCol) : List String :=
  ["/", "/cost/", "/how-to/"] ++
    cities.map (fun c => "/" ++ city_state_slug c.1 c.2.1 ++ "/")

/-! ### Counting occurrences of a tag in the generated markup -/

/-- Number of positions of `l` at which `pat` occurs (occurrences may
overlap). -/
def countPre (pat : List Char) : List Char → ℕ
  | [] => 0
  | c :: rest => (if pat.isPrefixOf (c :: rest) then 1 else 0) + countPre pat rest

/-- Occurrence count of `pat` inside the string `s`. -/
def countSub (pat s : String) : ℕ := countPre pat.data s.data

/-- The text contains no `<` at all. -/
def ltFree (l : List Char) : Bool := l.all (fun c => !(c == '<'))

/-- Every `<` is immediately followed by `a` or `/` (and the text does not
end in `<`): the only markup such text can open is an anchor tag. -/
def ltOk : List Char → Bool
  | [] => true
  | c :: rest =>
    ((!(c == '<')) || (match rest with
      | [] => false
      | d :: _ => d == 'a' || d == '/')) && ltOk rest

theorem countPre_cons (pat : List Char) (c : Char) (rest : List Char) :
    countPre pat (c :: rest) =
      (if pat.isPrefixOf (c :: rest) then 1 else 0) + countPre pat rest := rfl

theorem ltOk_cons (c : Char) (rest : List Char) :
    ltOk (c :: rest) = (((!(c == '<')) || (match rest with
      | [] => false
      | d :: _ => d == 'a' || d == '/')) && ltOk rest) := rfl

theorem countPre_append_ltFree {a : List Char} (pat b : List Char)
    (h : ltFree a = true) :
    countPre ('<' :: pat) (a ++ b) = countPre ('<' :: pat) b := by
  induction a with
  | nil => rfl
  | cons c a' ih =>
    simp only [ltFree, List.all_cons, Bool.and_eq_true] at h
    have hc : c ≠ '<' := by
      intro habs
      subst habs
      simp at h
    have htail : ltFree a' = true := h.2
    have hpref : ¬ ((('<' :: pat).isPrefixOf (c :: (a' ++ b))) = true) := by
      intro habs
      have hh : ('<' == c) = true ∧ pat.isPrefixOf (a' ++ b) = true := by
        simpa [List.isPrefixOf] using habs
      have hc2 : '<' = c := by simpa using hh.1
      exact hc hc2.symm
    rw [List.cons_append, countPre_cons, if_neg hpref, ih htail]
    simp

theorem countPre_append_ltOk {a : List Char} {h : Char} (pat b : List Char)
    (hh1 : (h == 'a') = false) (hh2 : (h == '/') = false)
    (hok : ltOk a = true) :
    countPre ('<' :: h :: pat) (a ++ b) = countPre ('<' :: h :: pat) b := by
  induction a with
  | nil => rfl
  | cons c a' ih =>
    rw [ltOk_cons, Bool.and_eq_true] at hok
    have hpref : ¬ ((('<' :: h :: pat).isPrefixOf (c :: (a' ++ b))) = true) := by
      intro habs
      have hsplit : ('<' == c) = true ∧ (h :: pat).isPrefixOf (a' ++ b) = true := by
        simpa [List.isPrefixOf] using habs
      have hceq' : '<' = c := by simpa using hsplit.1
      have hceq : c = '<' := hceq'.symm
      subst hceq
      have hguard := hok.1
      rw [show (('<' : Char) == '<') = true from by decide] at hguard
      simp only [Bool.not_true, Bool.false_or] at hguard
      cases a' with
      | nil => simp at hguard
      | cons d a'' =>
        have hd : (d == 'a' || d == '/') = true := by simpa using hguard
        have hpref2 : (h == d) = true ∧ pat.isPrefixOf (a'' ++ b) = true := by
          have hx : (h :: pat).isPrefixOf (d :: (a'' ++ b)) = true := hsplit.2
          simpa [List.isPrefixOf] using hx
        have hdeq : h = d := by simpa using hpref2.1
        subst hdeq
        rcases Bool.or_eq_true_iff.mp hd with h1 | h2
        · rw [h1] at hh1; cases hh1
        · rw [h2] at hh2; cases hh2
    rw [List.cons_append, countPre_cons, if_neg hpref, ih hok.2]
    simp

/-- No nonempty proper prefix of `pat` is a suffix of `a`: appending text
after `a` cannot create an occurrence of `pat` that straddles the
boundary. -/
def stradFree (pat a : List Char) : Bool :=
  (List.range pat.length).all fun n => n == 0 || !((pat.take n).isSuffixOf a)

theorem stradFree_spec {pat a : List Char} (h : stradFree pat a = true) :
    ∀ n, 0 < n → n < pat.length → ((pat.take n).isSuffixOf a) = false := by
  intro n hn hlt
  have h2 := (List.all_eq_true.mp h) n (List.mem_range.mpr hlt)
  rcases Bool.or_eq_true_iff.mp h2 with h3 | h4
  · have : n = 0 := by simpa using h3
    omega
  · rwa [Bool.not_eq_true'] at h4

theorem isSuffixOf_cons_of {l a' : List Char} (c : Char)
    (h : l.isSuffixOf a' = true) : l.isSuffixOf (c :: a') = true := by
  rw [List.isSuffixOf_iff_suffix] at h ⊢
  exact h.trans (List.suffix_cons c a')

theorem stradFree_tail {pat : List Char} {c : Char} {a' : List Char}
    (h : stradFree pat (c :: a') = true) : stradFree pat a' = true := by
  refine List.all_eq_true.mpr fun n hn => ?_
  rcases Bool.or_eq_true_iff.mp ((List.all_eq_true.mp h) n hn) with h1 | h2
  · exact Bool.or_eq_true_iff.mpr (Or.inl h1)
  · refine Bool.or_eq_true_iff.mpr (Or.inr ?_)
    rw [Bool.not_eq_true'] at h2 ⊢
    cases hsuf : (pat.take n).isSuffixOf a' with
    | false => rfl
    | true => rw [isSuffixOf_cons_of c hsuf] at h2; cases h2

theorem countPre_append_stradFree (pat : List Char) {a : List Char}
    (b : List Char) (h : stradFree pat a = true) :
    countPre pat (a ++ b) = countPre pat a + countPre pat b := by
  induction a with
  | nil => simp [countPre]
  | cons c a' ih =>
    rw [List.cons_append, countPre_cons, countPre_cons, ih (stradFree_tail h)]
    have hiff : (pat.isPrefixOf (c :: (a' ++ b))) = (pat.isPrefixOf (c :: a')) := by
      by_cases hp : pat.isPrefixOf (c :: a') = true
      · rw [hp]
        have h1 := List.isPrefixOf_iff_prefix.mp hp
        have h2 : pat <+: (c :: a') ++ b := h1.trans (List.prefix_append _ _)
        rw [List.cons_append] at h2
        exact List.isPrefixOf_iff_prefix.mpr h2
      · have hp' : pat.isPrefixOf (c :: a') = false := by
          cases hx : pat.isPrefixOf (c :: a') with
          | false => rfl
          | true => exact absurd hx hp
        rw [hp']
        cases hx : pat.isPrefixOf (c :: (a' ++ b)) with
        | false => rfl
        | true =>
          exfalso
          have hpre : pat <+: (c :: a') ++ b := by
            rw [List.cons_append]
            exact List.isPrefixOf_iff_prefix.mp hx
          rcases le_or_lt pat.length (c :: a').length with hle | hlt
          · refine hp ?_
            refine List.isPrefixOf_iff_prefix.mpr ?_
            rw [List.prefix_iff_eq_take] at hpre ⊢
            rwa [List.take_append_of_le_length hle] at hpre
          · have hpc : (c :: a') <+: pat :=
              List.prefix_of_prefix_length_le (List.prefix_append _ _) hpre
                (le_of_lt hlt)
            have htake : c :: a' = pat.take (c :: a').length :=
              List.prefix_iff_eq_take.mp hpc
            have hsuf : ((pat.take (c :: a').length).isSuffixOf (c :: a')) = true := by
              rw [← htake, List.isSuffixOf_iff_suffix]
            have := stradFree_spec h (c :: a').length (by simp) hlt
            rw [hsuf] at this
            cases this
    rw [hiff]
    omega

theorem ltFree_append {a b : List Char} (ha : ltFree a = true)
    (hb : ltFree b = true) : ltFree (a ++ b) = true := by
  simp only [ltFree, List.all_append, Bool.and_eq_true]
  exact ⟨ha, hb⟩

theorem ltOk_of_ltFree {l : List Char} (h : ltFree l = true) : ltOk l = true := by
  induction l with
  | nil => rfl
  | cons c rest ih =>
    simp only [ltFree, List.all_cons, Bool.and_eq_true] at h
    rw [ltOk_cons, Bool.and_eq_true]
    exact ⟨Bool.or_eq_true_iff.mpr (Or.inl h.1), ih (by simpa [ltFree] using h.2)⟩

theorem ltOk_append {a b : List Char} (ha : ltOk a = true)
    (hb : ltOk b = true) : ltOk (a ++ b) = true := by
  induction a with
  | nil => exact hb
  | cons c a' ih =>
    rw [ltOk_cons, Bool.and_eq_true] at ha
    rw [List.cons_append, ltOk_cons, Bool.and_eq_true]
    refine ⟨?_, ih ha.2⟩
    rcases Bool.or_eq_true_iff.mp ha.1 with h1 | h2
    · exact Bool.or_eq_true_iff.mpr (Or.inl h1)
    · cases a' with
      | nil => simp at h2
      | cons d a'' => exact Bool.or_eq_true_iff.mpr (Or.inr (by simpa using h2))

theorem ltFree_escChar (c : Char) : ltFree (escChar c) = true := by
  rw [escChar]
  split_ifs with h1 h2 h3 h4 h5
  · decide
  · decide
  · decide
  · decide
  · decide
  · simp only [ltFree, List.all_cons, List.all_nil, Bool.and_true]
    simp [h2]

theorem ltFree_escList (l : List Char) : ltFree (escList l) = true := by
  induction l with
  | nil => rfl
  | cons c rest ih =>
    rw [show escList (c :: rest) = escChar c ++ escList rest from rfl]
    exact ltFree_append (ltFree_escChar c) ih

theorem ltOk_linkGo (l : List Char) : ∀ st, ltOk (linkGo st l) = true := by
  induction l with
  | nil =>
    intro st
    cases st with
    | none => rfl
    | some acc =>
      exact ltOk_of_ltFree (ltFree_append (ltFree_escChar _) (ltFree_escList _))
  | cons c rest ih =>
    intro st
    cases st with
    | none =>
      rw [linkGo]
      split
      · exact ih (some [])
      · exact ltOk_append (ltOk_of_ltFree (ltFree_escChar c)) (ih none)
    | some acc =>
      rw [linkGo]
      split
      · split
        · exact ltOk_append (ltOk_append
            (ltOk_of_ltFree (ltFree_escChar _)) (ltOk_of_ltFree (ltFree_escChar _)))
            (ih none)
        · exact ltOk_append (ltOk_append (ltOk_append (by decide)
            (ltOk_of_ltFree (ltFree_escList _))) (by decide)) (ih none)
      · exact ih (some (c :: acc))

/-! ### Pieces: generated markup as literal, escaped, and linkified parts -/

/-- A fragment of generated markup: a literal template piece, an HTML-escaped
piece, or a curly-linkified piece. -/
inductive Piece where
  | lit : String → Piece
  | escd : String → Piece
  | link : String → Piece

/-- Characters of one piece. -/
def renderPiece : Piece → List Char
  | .lit s => s.data
  | .escd s => escList s.data
  | .link s => linkGo none s.data

/-- Characters of a sequence of pieces. -/
def render : List Piece → List Char
  | [] => []
  | p :: ps => renderPiece p ++ render ps

/-- Occurrences contributed by one piece: only literal template text can
contain a tag pattern. -/
def pieceCount (pat : List Char) : Piece → ℕ
  | .lit s => countPre pat s.data
  | _ => 0

theorem esc_data (s : String) : (esc s).data = escList s.data := rfl

theorem linkify_curly_data (s : String) :
    (linkify_curly s).data = linkGo none s.data := rfl

theorem render_cons (q : Piece) (ps : List Piece) :
    render (q :: ps) = renderPiece q ++ render ps := rfl

/-- Counting a tag pattern over rendered pieces: escaped pieces contain no
`<`, linkified pieces only open anchor tags, and literal pieces are
straddle-free, so the count is the sum of the literal pieces' counts. -/
theorem countPre_render {h : Char} (pat : List Char)
    (hh1 : (h == 'a') = false) (hh2 : (h == '/') = false) :
    ∀ ps : List Piece,
      (∀ s, Piece.lit s ∈ ps → stradFree ('<' :: h :: pat) s.data = true) →
      countPre ('<' :: h :: pat) (render ps) =
        (ps.map (pieceCount ('<' :: h :: pat))).sum := by
  intro ps
  induction ps with
  | nil => intro _; rfl
  | cons q ps' ih =>
    intro hlits
    have htail : ∀ s, Piece.lit s ∈ ps' →
        stradFree ('<' :: h :: pat) s.data = true :=
      fun s hs => hlits s (List.mem_cons_of_mem q hs)
    cases q with
    | lit s =>
      show countPre _ (s.data ++ render ps') = _
      rw [countPre_append_stradFree _ _ (hlits s (List.mem_cons_self _ _)),
        ih htail]
      simp [pieceCount]
    | escd s =>
      show countPre _ (escList s.data ++ render ps') = _
      rw [countPre_append_ltFree _ _ (ltFree_escList _), ih htail]
      simp [pieceCount]
    | link s =>
      show countPre _ (linkGo none s.data ++ render ps') = _
      rw [countPre_append_ltOk _ _ hh1 hh2 (ltOk_linkGo _ none), ih htail]
      simp [pieceCount]

/-- The pieces of `make_section`. -/
def sectionPieces : List String → List String → List Piece
  | h :: hs, p :: ps =>
    Piece.lit "<h2>" :: Piece.escd h :: Piece.lit "</h2>" :: Piece.lit "\n" ::
      Piece.lit "<p>" :: Piece.link p :: Piece.lit "</p>" ::
      (match hs, ps with
       | _ :: _, _ :: _ => Piece.lit "\n" :: sectionPieces hs ps
       | _, _ => [])
  | _, _ => []

theorem sectionPieces_one_left (h p : String) (ps : List String) :
    sectionPieces [h] (p :: ps) = [Piece.lit "<h2>", Piece.escd h,
      Piece.lit "</h2>", Piece.lit "\n", Piece.lit "<p>", Piece.link p,
      Piece.lit "</p>"] := rfl

theorem sectionPieces_one_right (h h' : String) (hs : List String) (p : String) :
    sectionPieces (h :: h' :: hs) [p] = [Piece.lit "<h2>", Piece.escd h,
      Piece.lit "</h2>", Piece.lit "\n", Piece.lit "<p>", Piece.link p,
      Piece.lit "</p>"] := rfl

theorem sectionPieces_cons₂ (h h' p p' : String) (hs ps : List String) :
    sectionPieces (h :: h' :: hs) (p :: p' :: ps) =
      Piece.lit "<h2>" :: Piece.escd h :: Piece.lit "</h2>" :: Piece.lit "\n" ::
      Piece.lit "<p>" :: Piece.link p :: Piece.lit "</p>" ::
      Piece.lit "\n" :: sectionPieces (h' :: hs) (p' :: ps) := rfl

theorem joinSep_cons₂ (sep x y : String) (rest : List String) :
    joinSep sep (x :: y :: rest) = x ++ sep ++ joinSep sep (y :: rest) := rfl

theorem joinSep_cons_ne (sep x : String) {rest : List String} (h : rest ≠ []) :
    joinSep sep (x :: rest) = x ++ sep ++ joinSep sep rest := by
  cases rest with
  | nil => exact absurd rfl h
  | cons y r => rfl

theorem section_parts_cons (h p : String) (hs ps : List String) :
    section_parts (h :: hs) (p :: ps) =
      ("<h2>" ++ esc h ++ "</h2>") ::
        ("<p>" ++ linkify_curly p ++ "</p>") :: section_parts hs ps := rfl

/-- `make_section` rendered as pieces. -/
theorem make_section_data :
    ∀ (h p : List String),
      (make_section h p).data = render (sectionPieces h p) := by
  intro h
  induction h with
  | nil => intro p; rfl
  | cons hh hs ih =>
    intro p
    cases p with
    | nil => rfl
    | cons pp ps =>
      cases hs with
      | nil =>
        rw [make_section, section_parts_cons, joinSep_cons₂,
          sectionPieces_one_left]
        simp [joinSep, section_parts, String.data_append, esc_data,
          linkify_curly_data, List.append_assoc, render, renderPiece]
      | cons hh' hs' =>
        cases ps with
        | nil =>
          rw [make_section, section_parts_cons, joinSep_cons₂,
            sectionPieces_one_right]
          simp [joinSep, section_parts, String.data_append, esc_data,
            linkify_curly_data, List.append_assoc, render, renderPiece]
        | cons pp' ps' =>
          have hne : section_parts (hh' :: hs') (pp' :: ps') ≠ [] := by
            rw [section_parts_cons]
            simp
          have hrec : (make_section (hh' :: hs') (pp' :: ps')).data =
              render (sectionPieces (hh' :: hs') (pp' :: ps')) := ih (pp' :: ps')
          rw [make_section, section_parts_cons, joinSep_cons₂,
            joinSep_cons_ne "\n" _ hne,
            show joinSep "\n" (section_parts (hh' :: hs') (pp' :: ps')) =
              make_section (hh' :: hs') (pp' :: ps') from rfl,
            sectionPieces_cons₂]
          simp [String.data_append, esc_data, linkify_curly_data,
            List.append_assoc, hrec, render, renderPiece]

/-- The literal pieces of a section are the five fixed tag fragments. -/
theorem lit_mem_sectionPieces :
    ∀ (h p : List String) (s : String), Piece.lit s ∈ sectionPieces h p →
      s = "<h2>" ∨ s = "</h2>" ∨ s = "\n" ∨ s = "<p>" ∨ s = "</p>" := by
  intro h
  induction h with
  | nil => intro p s hs; cases hs
  | cons hh hs ih =>
    intro p s hmem
    cases p with
    | nil => cases hmem
    | cons pp ps =>
      cases hs with
      | nil =>
        rw [sectionPieces_one_left] at hmem
        simp only [List.mem_cons, List.not_mem_nil, or_false] at hmem
        rcases hmem with h1 | h1 | h1 | h1 | h1 | h1 | h1
        · exact Or.inl (Piece.lit.inj h1)
        · cases h1
        · exact Or.inr (Or.inl (Piece.lit.inj h1))
        · exact Or.inr (Or.inr (Or.inl (Piece.lit.inj h1)))
        · exact Or.inr (Or.inr (Or.inr (Or.inl (Piece.lit.inj h1))))
        · cases h1
        · exact Or.inr (Or.inr (Or.inr (Or.inr (Piece.lit.inj h1))))
      | cons hh' hs' =>
        cases ps with
        | nil =>
          rw [sectionPieces_one_right] at hmem
          simp only [List.mem_cons, List.not_mem_nil, or_false] at hmem
          rcases hmem with h1 | h1 | h1 | h1 | h1 | h1 | h1
          · exact Or.inl (Piece.lit.inj h1)
          · cases h1
          · exact Or.inr (Or.inl (Piece.lit.inj h1))
          · exact Or.inr (Or.inr (Or.inl (Piece.lit.inj h1)))
          · exact Or.inr (Or.inr (Or.inr (Or.inl (Piece.lit.inj h1))))
          · cases h1
          · exact Or.inr (Or.inr (Or.inr (Or.inr (Piece.lit.inj h1))))
        | cons pp' ps' =>
          rw [sectionPieces_cons₂] at hmem
          simp only [List.mem_cons] at hmem
          rcases hmem with h1 | h1 | h1 | h1 | h1 | h1 | h1 | h1 | h1
          · exact Or.inl (Piece.lit.inj h1)
          · cases h1
          · exact Or.inr (Or.inl (Piece.lit.inj h1))
          · exact Or.inr (Or.inr (Or.inl (Piece.lit.inj h1)))
          · exact Or.inr (Or.inr (Or.inr (Or.inl (Piece.lit.inj h1))))
          · cases h1
          · exact Or.inr (Or.inr (Or.inr (Or.inr (Piece.lit.inj h1))))
          · exact Or.inr (Or.inr (Or.inl (Piece.lit.inj h1)))
          · exact ih (pp' :: ps') s (by simpa using h1)

/-- The summed piece counts of a section, in terms of the per-pair literal
count `k` and the separator count `m`. -/
theorem sum_count_sectionPieces (pat : List Char) (k m : ℕ)
    (h1 : countPre pat ['<', 'h', '2', '>'] + countPre pat ['<', '/', 'h', '2', '>'] +
      countPre pat ['\n'] + countPre pat ['<', 'p', '>'] +
      countPre pat ['<', '/', 'p', '>'] = k)
    (h2 : countPre pat ['\n'] = m) :
    ∀ hs ps : List String,
      ((sectionPieces hs ps).map (pieceCount pat)).sum =
        (hs.zip ps).length * k + ((hs.zip ps).length - 1) * m := by
  intro hs
  induction hs with
  | nil =>
    intro ps
    simp [sectionPieces]
  | cons hh hs' ih =>
    intro ps
    cases ps with
    | nil => simp [sectionPieces]
    | cons pp ps' =>
      cases hs' with
      | nil =>
        rw [sectionPieces_one_left]
        simp only [List.map_cons, List.map_nil, List.sum_cons, List.sum_nil,
          pieceCount]
        rw [show ([hh].zip (pp :: ps')).length = 1 from by
          rw [List.zip_cons_cons, List.zip_nil_left, List.length_cons,
            List.length_nil]]
        omega
      | cons hh' hs'' =>
        cases ps' with
        | nil =>
          rw [sectionPieces_one_right]
          simp only [List.map_cons, List.map_nil, List.sum_cons, List.sum_nil,
            pieceCount]
          rw [show ((hh :: hh' :: hs'').zip [pp]).length = 1 from by
            rw [List.zip_cons_cons, List.zip_nil_right, List.length_cons,
              List.length_nil]]
          omega
        | cons pp' ps'' =>
          rw [sectionPieces_cons₂]
          simp only [List.map_cons, List.sum_cons, pieceCount]
          rw [ih (pp' :: ps'')]
          have hz : 1 ≤ ((hh' :: hs'').zip (pp' :: ps'')).length := by
            rw [List.zip_cons_cons, List.length_cons]
            omega
          rw [show ((hh :: hh' :: hs'').zip (pp :: pp' :: ps'')).length =
              ((hh' :: hs'').zip (pp' :: ps'')).length + 1 from by
            rw [List.zip_cons_cons, List.length_cons]]
          generalize hgen : ((hh' :: hs'').zip (pp' :: ps'')).length = n at hz ⊢
          have e1 : (n + 1) * k = n * k + k := Nat.succ_mul n k
          have e2 : n + 1 - 1 = n := Nat.add_sub_cancel n 1
          have e3 : n * m = (n - 1) * m + m := by
            have h4 : n - 1 + 1 = n := Nat.sub_add_cancel hz
            calc n * m = (n - 1 + 1) * m := by rw [h4]
              _ = (n - 1) * m + m := Nat.succ_mul _ _
          rw [e1, e2, e3]
          omega

/-! ### The pages as pieces -/

theorem render_append (a b : List Piece) :
    render (a ++ b) = render a ++ render b := by
  induction a with
  | nil => rfl
  | cons q a' ih => rw [List.cons_append, render_cons, render_cons, ih,
      List.append_assoc]

theorem dropTrailing_append {p : Char → Bool} (x : List Char) {y : List Char}
    (h : dropTrailing p y ≠ []) :
    dropTrailing p (x ++ y) = x ++ dropTrailing p y := by
  induction x with
  | nil => rfl
  | cons c x' ih =>
    have hg : ¬ (((dropTrailing p (x' ++ y)).isEmpty && p c) = true) := by
      intro habs
      rw [Bool.and_eq_true, List.isEmpty_iff, ih] at habs
      exact h (List.append_eq_nil.mp habs.1).2
    rw [List.cons_append, dropTrailing, if_neg hg, ih, List.cons_append]

/-- The pieces of `nav_html`'s `item` helper. -/
def navItemPieces (current href label key : String) : List Piece :=
  [Piece.lit "<a href=\x22", Piece.escd href,
    Piece.lit "\x22",
    Piece.lit (if current = key then " aria-current=\x22page\x22" else ""),
    Piece.lit ">", Piece.escd label, Piece.lit "</a>"]

theorem nav_item_data (current href label key : String) :
    (nav_item current href label key).data =
      render (navItemPieces current href label key) := by
  simp [nav_item, navItemPieces, render, renderPiece, String.data_append,
    esc_data, List.append_assoc]

/-- The pieces of `nav_html`. -/
def navPieces (current : String) : List Piece :=
  Piece.lit "<nav class=\x22nav\x22 aria-label=\x22Primary navigation\x22>" ::
    navItemPieces current "/" "Home" "home" ++
    navItemPieces current "/cost/" "Cost" "cost" ++
    navItemPieces current "/how-to/" "How-To" "howto" ++
    [Piece.lit "<a class=\x22btn\x22 href=\x22", Piece.escd SiteConfig.cta_href,
      Piece.lit "\x22>", Piece.escd SiteConfig.cta_text, Piece.lit "</a>",
      Piece.lit "</nav>"]

theorem nav_html_data (current : String) :
    (nav_html current).data = render (navPieces current) := by
  simp [nav_html, navPieces, nav_item_data, render_append, render, renderPiece,
    String.data_append, esc_data, List.append_assoc]

/-- The pieces of `header_block`. -/
def headerPieces (h1 sub : String) : List Piece :=
  [Piece.lit "\n<header>\n  <div class=\x22hero\x22>\n    <h1>", Piece.escd h1,
    Piece.lit "</h1>\n    <p class=\x22sub\x22>", Piece.escd sub,
    Piece.lit "</p>\n  </div>\n</header>"]

theorem pyRstrip_data (s : String) : (pyRstrip s).data = rstrip s.data := rfl

set_option maxRecDepth 8000 in
theorem header_block_data (h1 sub : String) :
    (header_block h1 sub).data = render (headerPieces h1 sub) := by
  simp only [header_block, pyRstrip_data, rstrip]
  rw [String.data_append, dropTrailing_append _ (by decide)]
  rw [show dropTrailing pyIsSpace "</p>\n  </div>\n</header>\n".data =
      "</p>\n  </div>\n</header>".data from by decide]
  simp [headerPieces, render, renderPiece, String.data_append, esc_data,
    List.append_assoc]

/-- The pieces of `footer_block`. -/
def footerPieces : List Piece :=
  [Piece.lit "\n<footer>\n  <div class=\x22footer-inner\x22>\n    <h2>Next steps</h2>\n    <p class=\x22sub\x22>Ready to move forward? Request a free quote.</p>\n    <div>\n      <a class=\x22btn\x22 href=\x22",
    Piece.escd SiteConfig.cta_href, Piece.lit "\x22>",
    Piece.escd SiteConfig.cta_text,
    Piece.lit "</a>\n    </div>\n    <div class=\x22footer-links\x22>\n      <a href=\x22/\x22>Home</a>\n      <a href=\x22/cost/\x22>Cost</a>\n      <a href=\x22/how-to/\x22>How-To</a>\n    </div>\n    <div class=\x22small\x22>© ",
    Piece.escd SiteConfig.brand_name,
    Piece.lit ". All rights reserved.</div>\n  </div>\n</footer>"]

set_option maxRecDepth 8000 in
theorem footer_block_data :
    footer_block.data = render footerPieces := by
  simp only [footer_block, pyRstrip_data, rstrip]
  rw [String.data_append, dropTrailing_append _ (by decide)]
  rw [show dropTrailing pyIsSpace
      ". All rights reserved.</div>\n  </div>\n</footer>\n".data =
      ". All rights reserved.</div>\n  </div>\n</footer>".data from by decide]
  simp [footerPieces, render, renderPiece, String.data_append, esc_data,
    List.append_assoc]

/-- The pieces of `page_shell`, given pieces for the inner HTML. -/
def shellPieces (h1 sub : String) (innerPieces : List Piece) : List Piece :=
  headerPieces h1 sub ++
    [Piece.lit "\n<main>\n  <section class=\x22card\x22>\n    <div class=\x22img\x22>\n      <img src=\x22",
      Piece.escd ("/" ++ SiteConfig.image_filename),
      Piece.lit "\x22 alt=\x22Service image\x22 loading=\x22lazy\x22 />\n    </div>\n    "] ++
    innerPieces ++
    [Piece.lit "\n  </section>\n</main>\n"] ++ footerPieces

theorem append_ne_nil_right {α : Type} (x : List α) {y : List α}
    (h : y ≠ []) : x ++ y ≠ [] :=
  fun habs => h (List.append_eq_nil.mp habs).2

theorem footer_block_ne_nil : footer_block.data ≠ [] := by
  rw [footer_block_data]
  simp only [footerPieces, render, renderPiece, List.append_nil]
  exact append_ne_nil_right _ (append_ne_nil_right _ (append_ne_nil_right _
    (append_ne_nil_right _ (append_ne_nil_right _ (append_ne_nil_right _
      (by decide))))))

theorem footer_block_lastNot : lastNot pyIsSpace footer_block.data = true := by
  rw [footer_block_data]
  simp only [footerPieces, render, renderPiece, List.append_nil]
  have h4 : ". All rights reserved.</div>\n  </div>\n</footer>".data ≠
      ([] : List Char) := by decide
  rw [lastNot_append _ (append_ne_nil_right _ (append_ne_nil_right _
      (append_ne_nil_right _ (append_ne_nil_right _ (append_ne_nil_right _ h4))))),
    lastNot_append _ (append_ne_nil_right _ (append_ne_nil_right _
      (append_ne_nil_right _ (append_ne_nil_right _ h4)))),
    lastNot_append _ (append_ne_nil_right _ (append_ne_nil_right _
      (append_ne_nil_right _ h4))),
    lastNot_append _ (append_ne_nil_right _ (append_ne_nil_right _ h4)),
    lastNot_append _ (append_ne_nil_right _ h4),
    lastNot_append _ h4]
  decide

theorem dropTrailing_footer : dropTrailing pyIsSpace footer_block.data =
    footer_block.data := dropTrailing_eq_self footer_block_lastNot

set_option maxRecDepth 40000 in
theorem page_shell_data (h1 sub inner : String) (innerPieces : List Piece)
    (hinner : inner.data = render innerPieces) :
    (page_shell h1 sub inner).data = render (shellPieces h1 sub innerPieces) := by
  have hfne : dropTrailing pyIsSpace footer_block.data ≠ [] := by
    rw [dropTrailing_footer]
    exact footer_block_ne_nil
  simp only [page_shell, pyRstrip_data, rstrip]
  rw [String.data_append, dropTrailing_append _ hfne, dropTrailing_footer]
  simp [shellPieces, header_block_data, footer_block_data, hinner,
    render_append, render, renderPiece, String.data_append, esc_data,
    List.append_assoc]

/-- The pieces of `make_page`, given pieces for the inner HTML. -/
def pagePieces (h1 canonical nav_key sub : String)
    (innerPieces : List Piece) : List Piece :=
  Piece.lit "<!doctype html>\n<html lang=\x22en\x22>\n<head>\n  <meta charset=\x22utf-8\x22 />\n  <meta name=\x22viewport\x22 content=\x22width=device-width, initial-scale=1\x22 />\n  <title>" ::
    Piece.escd (clamp_title h1 70) ::
    Piece.lit "</title>\n  <link rel=\x22canonical\x22 href=\x22" ::
    Piece.escd canonical ::
    Piece.lit "\x22 />\n  <style>\n" ::
    Piece.lit SiteConfig.CSS ::
    Piece.lit "\n  </style>\n</head>\n<body>\n  <div class=\x22topbar\x22>\n    <div class=\x22topbar-inner\x22>\n      <a class=\x22brand\x22 href=\x22/\x22>" ::
    Piece.escd SiteConfig.brand_name ::
    Piece.lit "</a>\n      " ::
    (navPieces nav_key ++
      (Piece.lit "\n    </div>\n  </div>\n" ::
        (shellPieces (clamp_title h1 70) sub innerPieces ++
          [Piece.lit "\n</body>\n</html>\n"])))

set_option maxRecDepth 40000 in
theorem make_page_data (h1 canonical nav_key sub inner : String)
    (innerPieces : List Piece) (hinner : inner.data = render innerPieces) :
    (make_page h1 canonical nav_key sub inner).data =
      render (pagePieces h1 canonical nav_key sub innerPieces) := by
  simp only [make_page, base_html]
  simp [String.data_append, esc_data, nav_html_data,
    page_shell_data _ _ _ _ hinner, pagePieces, render_append, render,
    renderPiece, List.append_assoc]

/-! ### Tag counting over whole pages -/

theorem countPre_zero_of_ltFree {a : List Char} (pat : List Char)
    (h : ltFree a = true) : countPre ('<' :: pat) a = 0 := by
  have h2 := countPre_append_ltFree (a := a) pat [] h
  simpa using h2

theorem stradFree_of_ltFree (p : List Char) {a : List Char}
    (h : ltFree a = true) : stradFree ('<' :: p) a = true := by
  refine List.all_eq_true.mpr fun n hn => ?_
  rcases Nat.eq_zero_or_pos n with h0 | h0
  · exact Bool.or_eq_true_iff.mpr (Or.inl (by simp [h0]))
  · refine Bool.or_eq_true_iff.mpr (Or.inr ?_)
    rw [Bool.not_eq_true']
    cases hsuf : ((('<' :: p).take n).isSuffixOf a) with
    | false => rfl
    | true =>
      exfalso
      rw [List.isSuffixOf_iff_suffix] at hsuf
      have hmem : '<' ∈ a := by
        apply hsuf.subset
        cases n with
        | zero => omega
        | succ m =>
          rw [List.take_succ_cons]
          exact List.mem_cons_self _ _
      have h3 := (List.all_eq_true.mp h) '<' hmem
      simp at h3

set_option maxRecDepth 4000 in
theorem ltFree_CSS : ltFree SiteConfig.CSS.data = true := by
  simp only [SiteConfig.CSS, String.data_append]
  repeat' apply ltFree_append
  all_goals decide

/-- All literal pieces of a list are straddle-free for `pat`. -/
def litsOk (pat : List Char) (ps : List Piece) : Bool :=
  ps.all fun q => match q with
    | Piece.lit s => stradFree pat s.data
    | _ => true

theorem litsOk_append {pat : List Char} {a b : List Piece}
    (ha : litsOk pat a = true) (hb : litsOk pat b = true) :
    litsOk pat (a ++ b) = true := by
  simp only [litsOk, List.all_append, Bool.and_eq_true]
  exact ⟨ha, hb⟩

theorem countPre_render_litsOk {h : Char} (pat : List Char)
    (hh1 : (h == 'a') = false) (hh2 : (h == '/') = false)
    (ps : List Piece) (hok : litsOk ('<' :: h :: pat) ps = true) :
    countPre ('<' :: h :: pat) (render ps) =
      (ps.map (pieceCount ('<' :: h :: pat))).sum := by
  refine countPre_render pat hh1 hh2 ps fun s hs => ?_
  have h3 := List.all_eq_true.mp hok _ hs
  simpa using h3

/-- The pieces of a page before the inner HTML. -/
def pageFront (h1 canonical nav_key sub : String) : List Piece :=
  Piece.lit "<!doctype html>\n<html lang=\x22en\x22>\n<head>\n  <meta charset=\x22utf-8\x22 />\n  <meta name=\x22viewport\x22 content=\x22width=device-width, initial-scale=1\x22 />\n  <title>" ::
    Piece.escd (clamp_title h1 70) ::
    Piece.lit "</title>\n  <link rel=\x22canonical\x22 href=\x22" ::
    Piece.escd canonical ::
    Piece.lit "\x22 />\n  <style>\n" ::
    Piece.lit SiteConfig.CSS ::
    Piece.lit "\n  </style>\n</head>\n<body>\n  <div class=\x22topbar\x22>\n    <div class=\x22topbar-inner\x22>\n      <a class=\x22brand\x22 href=\x22/\x22>" ::
    Piece.escd SiteConfig.brand_name ::
    Piece.lit "</a>\n      " ::
    (navPieces nav_key ++
      (Piece.lit "\n    </div>\n  </div>\n" ::
        (headerPieces (clamp_title h1 70) sub ++
          [Piece.lit "\n<main>\n  <section class=\x22card\x22>\n    <div class=\x22img\x22>\n      <img src=\x22",
            Piece.escd ("/" ++ SiteConfig.image_filename),
            Piece.lit "\x22 alt=\x22Service image\x22 loading=\x22lazy\x22 />\n    </div>\n    "])))

/-- The pieces of a page after the inner HTML. -/
def pageBack : List Piece :=
  Piece.lit "\n  </section>\n</main>\n" ::
    (footerPieces ++ [Piece.lit "\n</body>\n</html>\n"])

theorem pagePieces_split (h1 canonical nav_key sub : String)
    (innerPieces : List Piece) :
    pagePieces h1 canonical nav_key sub innerPieces =
      pageFront h1 canonical nav_key sub ++ innerPieces ++ pageBack := by
  simp [pagePieces, pageFront, pageBack, shellPieces, List.append_assoc]

theorem countPre_aria_ite_eq (b : Prop) [Decidable b] :
    countPre ['<', 'h', '1', '>']
      ((if b then " aria-current=\x22page\x22" else "") : String).data = 0 := by
  split <;> decide

theorem stradFree_aria_ite_eq (b : Prop) [Decidable b] :
    stradFree ['<', 'h', '1', '>']
      ((if b then " aria-current=\x22page\x22" else "") : String).data = true := by
  split <;> decide

set_option maxRecDepth 4000 in
theorem litsOk_h1_pageFront (h1 canonical nav_key sub : String) :
    litsOk ['<', 'h', '1', '>'] (pageFront h1 canonical nav_key sub) = true := by
  simp only [pageFront, navPieces, navItemPieces, headerPieces, litsOk,
    List.all_append, List.all_cons, List.all_nil, Bool.and_eq_true]
  rw [stradFree_of_ltFree ['h', '1', '>'] ltFree_CSS]
  simp only [stradFree_aria_ite_eq]
  repeat' apply And.intro
  all_goals decide

set_option maxRecDepth 4000 in
theorem litsOk_h1_pageBack : litsOk ['<', 'h', '1', '>'] pageBack = true := by
  simp only [pageBack, footerPieces, litsOk, List.all_append, List.all_cons,
    List.all_nil, Bool.and_eq_true]
  repeat' apply And.intro
  all_goals decide

set_option maxRecDepth 4000 in
theorem sum_h1_pageFront (h1 canonical nav_key sub : String) :
    ((pageFront h1 canonical nav_key sub).map
      (pieceCount ['<', 'h', '1', '>'])).sum = 1 := by
  simp only [pageFront, navPieces, navItemPieces, headerPieces,
    List.map_append, List.map_cons, List.map_nil, List.sum_append,
    List.sum_cons, List.sum_nil, pieceCount]
  rw [countPre_zero_of_ltFree ['h', '1', '>'] ltFree_CSS]
  simp only [countPre_aria_ite_eq]
  decide

set_option maxRecDepth 4000 in
theorem sum_h1_pageBack :
    ((pageBack).map (pieceCount ['<', 'h', '1', '>'])).sum = 0 := by
  simp only [pageBack, footerPieces, List.map_append, List.map_cons,
    List.map_nil, List.sum_append, List.sum_cons, List.sum_nil, pieceCount]
  decide

theorem litsOk_cons (pat : List Char) (q : Piece) (ps : List Piece) :
    litsOk pat (q :: ps) =
      ((match q with
        | Piece.lit s => stradFree pat s.data
        | _ => true) && litsOk pat ps) := rfl

theorem litsOk_sectionPieces (pat : List Char)
    (c1 : stradFree pat "<h2>".data = true)
    (c2 : stradFree pat "</h2>".data = true)
    (c3 : stradFree pat "\n".data = true)
    (c4 : stradFree pat "<p>".data = true)
    (c5 : stradFree pat "</p>".data = true)
    (hs ps : List String) : litsOk pat (sectionPieces hs ps) = true := by
  refine List.all_eq_true.mpr fun q hq => ?_
  cases q with
  | lit s =>
    show stradFree pat s.data = true
    rcases lit_mem_sectionPieces hs ps s hq with e | e | e | e | e <;>
      subst e <;> assumption
  | escd s => rfl
  | link s => rfl

theorem litsOk_h1_section (hs ps : List String) :
    litsOk ['<', 'h', '1', '>'] (sectionPieces hs ps) = true :=
  litsOk_sectionPieces _ (by decide) (by decide) (by decide) (by decide)
    (by decide) hs ps

theorem sum_h1_section (hs ps : List String) :
    ((sectionPieces hs ps).map (pieceCount ['<', 'h', '1', '>'])).sum = 0 := by
  rw [sum_count_sectionPieces ['<', 'h', '1', '>'] 0 0 (by decide) (by decide)
    hs ps]
  simp

/-- The pieces of one homepage city-grid entry. -/
def cityItemPieces (c : CityWithCol) : List Piece :=
  [Piece.lit "<li><a href=\x22",
    Piece.escd ("/" ++ city_state_slug c.1 c.2.1 ++ "/"),
    Piece.lit "\x22>", Piece.escd c.1, Piece.lit ", ", Piece.escd c.2.1,
    Piece.lit "</a></li>"]

/-- The pieces of the newline-joined homepage city list. -/
def cityLinksPieces : List CityWithCol → List Piece
  | [] => []
  | [c] => cityItemPieces c
  | c :: c' :: rest => cityItemPieces c ++ (Piece.lit "\n" :: cityLinksPieces (c' :: rest))

theorem city_link_item_data (c : CityWithCol) :
    (city_link_item c).data = render (cityItemPieces c) := by
  simp [city_link_item, cityItemPieces, render, renderPiece,
    String.data_append, esc_data, List.append_assoc]

theorem city_links_data : ∀ cities : List CityWithCol,
    (joinSep "\n" (cities.map city_link_item)).data =
      render (cityLinksPieces cities) := by
  intro cities
  induction cities with
  | nil => rfl
  | cons c rest ih =>
    cases rest with
    | nil =>
      show (joinSep "\n" [city_link_item c]).data = render (cityItemPieces c)
      rw [show joinSep "\n" [city_link_item c] = city_link_item c from rfl]
      exact city_link_item_data c
    | cons c' rest' =>
      rw [List.map_cons, joinSep_cons_ne _ _ (by simp),
        show cityLinksPieces (c :: c' :: rest') =
          cityItemPieces c ++ (Piece.lit "\n" :: cityLinksPieces (c' :: rest'))
          from rfl,
        render_append, render_cons, String.data_append, String.data_append,
        city_link_item_data, ih]
      simp [renderPiece, List.append_assoc]

theorem litsOk_h1_cityItem (c : CityWithCol) :
    litsOk ['<', 'h', '1', '>'] (cityItemPieces c) = true := by
  simp only [cityItemPieces, litsOk, List.all_cons, List.all_nil,
    Bool.and_eq_true]
  repeat' apply And.intro
  all_goals decide

theorem litsOk_h1_cityLinks : ∀ cities : List CityWithCol,
    litsOk ['<', 'h', '1', '>'] (cityLinksPieces cities) = true := by
  intro cities
  induction cities with
  | nil => rfl
  | cons c rest ih =>
    cases rest with
    | nil => exact litsOk_h1_cityItem c
    | cons c' rest' =>
      rw [show cityLinksPieces (c :: c' :: rest') =
          cityItemPieces c ++ (Piece.lit "\n" :: cityLinksPieces (c' :: rest'))
          from rfl]
      refine litsOk_append (litsOk_h1_cityItem c) ?_
      rw [litsOk_cons]
      rw [ih]
      decide

theorem sum_h1_cityItem (c : CityWithCol) :
    ((cityItemPieces c).map (pieceCount ['<', 'h', '1', '>'])).sum = 0 := by
  simp only [cityItemPieces, List.map_cons, List.map_nil, List.sum_cons,
    List.sum_nil, pieceCount]
  decide

theorem sum_h1_cityLinks : ∀ cities : List CityWithCol,
    ((cityLinksPieces cities).map (pieceCount ['<', 'h', '1', '>'])).sum = 0 := by
  intro cities
  induction cities with
  | nil => rfl
  | cons c rest ih =>
    cases rest with
    | nil => exact sum_h1_cityItem c
    | cons c' rest' =>
      rw [show cityLinksPieces (c :: c' :: rest') =
          cityItemPieces c ++ (Piece.lit "\n" :: cityLinksPieces (c' :: rest'))
          from rfl]
      rw [List.map_append, List.sum_append, sum_h1_cityItem, List.map_cons,
        List.sum_cons, ih]
      decide

/-- The pieces of the homepage inner HTML. -/
def homeInnerPieces (cities : List CityWithCol) : List Piece :=
  sectionPieces SiteConfig.main_h2 SiteConfig.main_p ++
    (Piece.lit "\n<hr />\n<h2>Choose your city</h2>\n<p class=\x22muted\x22>We provide services nationwide, including in the following cities:</p>\n<ul class=\x22city-grid\x22>\n" ::
      (cityLinksPieces cities ++
        (Piece.lit "\n</ul>\n<hr />\n<p class=\x22muted\x22>\n  Also available: <a href=\x22/cost/\x22>" ::
          Piece.escd SiteConfig.cost_title ::
          Piece.lit "</a> and <a href=\x22/how-to/\x22>" ::
          Piece.escd SiteConfig.howto_title ::
          [Piece.lit "</a>.\n</p>\n"])))

theorem litsOk_h1_homeInner (cities : List CityWithCol) :
    litsOk ['<', 'h', '1', '>'] (homeInnerPieces cities) = true := by
  refine litsOk_append (litsOk_h1_section _ _) ?_
  rw [litsOk_cons]
  rw [show (match Piece.lit "\n<hr />\n<h2>Choose your city</h2>\n<p class=\x22muted\x22>We provide services nationwide, including in the following cities:</p>\n<ul class=\x22city-grid\x22>\n" with
      | Piece.lit s => stradFree ['<', 'h', '1', '>'] s.data
      | _ => true) = true from by decide, Bool.true_and]
  refine litsOk_append (litsOk_h1_cityLinks cities) ?_
  simp only [litsOk, List.all_cons, List.all_nil, Bool.and_eq_true]
  repeat' apply And.intro
  all_goals decide

set_option maxRecDepth 8000 in
theorem sum_h1_homeInner (cities : List CityWithCol) :
    ((homeInnerPieces cities).map (pieceCount ['<', 'h', '1', '>'])).sum = 0 := by
  simp only [homeInnerPieces, List.map_append, List.map_cons,
    List.sum_append, List.sum_cons, pieceCount, sum_h1_section,
    sum_h1_cityLinks, List.map_nil, List.sum_nil]
  decide

/-- The pieces of `location_cost_section`. -/
def locPieces (city state : String) (col : ℚ) : List Piece :=
  [Piece.lit "<h2>",
    Piece.escd (strReplace SiteConfig.location_cost_h2 "\x7bCity, State\x7d"
      (city ++ ", " ++ state)),
    Piece.lit "</h2>\n<p>",
    Piece.escd (strReplace (strReplace (strReplace SiteConfig.location_cost_p
      "\x7bCity, State\x7d" (city ++ ", " ++ state))
      "\x7bcost_lo\x7d" (cost_lo_str col))
      "\x7bcost_hi\x7d" (cost_hi_str col)),
    Piece.lit "</p>"]

theorem location_cost_section_data (city state : String) (col : ℚ) :
    (location_cost_section city state col).data =
      render (locPieces city state col) := by
  simp [location_cost_section, locPieces, render, renderPiece,
    String.data_append, esc_data, List.append_assoc]

theorem litsOk_h1_loc (city state : String) (col : ℚ) :
    litsOk ['<', 'h', '1', '>'] (locPieces city state col) = true := by
  simp only [locPieces, litsOk, List.all_cons, List.all_nil, Bool.and_eq_true]
  repeat' apply And.intro
  all_goals decide

theorem sum_h1_loc (city state : String) (col : ℚ) :
    ((locPieces city state col).map (pieceCount ['<', 'h', '1', '>'])).sum = 0 := by
  simp only [locPieces, List.map_cons, List.map_nil, List.sum_cons,
    List.sum_nil, pieceCount]
  decide

/-! ### Each page as pieces, and its h1 count -/

set_option maxRecDepth 16000 in
theorem homepage_data (cities : List CityWithCol) :
    (homepage_html cities).data =
      render (pagePieces SiteConfig.h1_title "/" "home" SiteConfig.h1_sub
        (homeInnerPieces cities)) := by
  refine make_page_data _ _ _ _ _ _ ?_
  simp [String.data_append, make_section_data, city_links_data, esc_data,
    homeInnerPieces, render_append, render, renderPiece, List.append_assoc]

theorem city_page_data (city state : String) (col : ℚ) :
    (city_page_html city state col).data =
      render (pagePieces (city_title city state)
        ("/" ++ city_state_slug city state ++ "/") "home" SiteConfig.h1_sub
        (locPieces city state col ++
          sectionPieces SiteConfig.main_h2 SiteConfig.main_p)) := by
  refine make_page_data _ _ _ _ _ _ ?_
  simp [String.data_append, location_cost_section_data, make_section_data,
    render_append]

theorem cost_page_data :
    cost_page_html.data =
      render (pagePieces SiteConfig.cost_title "/cost/" "cost"
        SiteConfig.cost_sub (sectionPieces SiteConfig.cost_h2 SiteConfig.cost_p)) :=
  make_page_data _ _ _ _ _ _ (make_section_data _ _)

theorem howto_page_data :
    howto_page_html.data =
      render (pagePieces SiteConfig.howto_title "/how-to/" "howto"
        SiteConfig.howto_sub
        (sectionPieces SiteConfig.howto_h2 SiteConfig.howto_p)) :=
  make_page_data _ _ _ _ _ _ (make_section_data _ _)

theorem h1_count_pagePieces (h1 canonical nav_key sub : String)
    (innerPieces : List Piece)
    (hok : litsOk ['<', 'h', '1', '>'] innerPieces = true)
    (hsum : (innerPieces.map (pieceCount ['<', 'h', '1', '>'])).sum = 0) :
    countPre ['<', 'h', '1', '>']
      (render (pagePieces h1 canonical nav_key sub innerPieces)) = 1 := by
  rw [pagePieces_split]
  rw [countPre_render_litsOk ['1', '>'] (by decide) (by decide) _
    (litsOk_append (litsOk_append (litsOk_h1_pageFront h1 canonical nav_key sub)
      hok) litsOk_h1_pageBack)]
  rw [List.map_append, List.map_append, List.sum_append, List.sum_append,
    sum_h1_pageFront, sum_h1_pageBack, hsum]

theorem h1_count_homepage (cities : List CityWithCol) :
    countSub "<h1>" (homepage_html cities) = 1 := by
  simp only [countSub]
  rw [homepage_data]
  exact h1_count_pagePieces _ _ _ _ _ (litsOk_h1_homeInner cities)
    (sum_h1_homeInner cities)

theorem h1_count_city_page (city state : String) (col : ℚ) :
    countSub "<h1>" (city_page_html city state col) = 1 := by
  simp only [countSub]
  rw [city_page_data]
  refine h1_count_pagePieces _ _ _ _ _
    (litsOk_append (litsOk_h1_loc city state col) (litsOk_h1_section _ _)) ?_
  rw [List.map_append, List.sum_append, sum_h1_loc, sum_h1_section]

theorem h1_count_cost_page : countSub "<h1>" cost_page_html = 1 := by
  simp only [countSub]
  rw [cost_page_data]
  exact h1_count_pagePieces _ _ _ _ _ (litsOk_h1_section _ _)
    (sum_h1_section _ _)

theorem h1_count_howto_page : countSub "<h1>" howto_page_html = 1 := by
  simp only [countSub]
  rw [howto_page_data]
  exact h1_count_pagePieces _ _ _ _ _ (litsOk_h1_section _ _)
    (sum_h1_section _ _)

/-! ### The title text and the h1 text of a page -/

set_option maxRecDepth 32000 in
theorem render_pageFront_decomp (h1 canonical nav_key sub : String) :
    ∃ a b c : List Char,
      render (pageFront h1 canonical nav_key sub) =
        a ++ ("<title>".data ++ escList (clamp_title h1 70).data ++
          "</title>".data) ++ b ++
        ("<h1>".data ++ escList (clamp_title h1 70).data ++ "</h1>".data) ++
        c := by
  refine ⟨"<!doctype html>\n<html lang=\x22en\x22>\n<head>\n  <meta charset=\x22utf-8\x22 />\n  <meta name=\x22viewport\x22 content=\x22width=device-width, initial-scale=1\x22 />\n  ".data,
    "\n  <link rel=\x22canonical\x22 href=\x22".data ++ escList canonical.data ++
      "\x22 />\n  <style>\n".data ++ SiteConfig.CSS.data ++
      "\n  </style>\n</head>\n<body>\n  <div class=\x22topbar\x22>\n    <div class=\x22topbar-inner\x22>\n      <a class=\x22brand\x22 href=\x22/\x22>".data ++
      escList SiteConfig.brand_name.data ++ "</a>\n      ".data ++
      render (navPieces nav_key) ++ "\n    </div>\n  </div>\n".data ++
      "\n<header>\n  <div class=\x22hero\x22>\n    ".data,
    "\n    <p class=\x22sub\x22>".data ++ escList sub.data ++
      "</p>\n  </div>\n</header>".data ++
      "\n<main>\n  <section class=\x22card\x22>\n    <div class=\x22img\x22>\n      <img src=\x22".data ++
      escList ("/" ++ SiteConfig.image_filename).data ++
      "\x22 alt=\x22Service image\x22 loading=\x22lazy\x22 />\n    </div>\n    ".data, ?_⟩
  simp [pageFront, headerPieces, render_append, render, renderPiece,
    List.append_assoc]

theorem render_pagePieces_decomp (h1 canonical nav_key sub : String)
    (innerPieces : List Piece) :
    ∃ a b c : List Char,
      render (pagePieces h1 canonical nav_key sub innerPieces) =
        a ++ ("<title>".data ++ escList (clamp_title h1 70).data ++
          "</title>".data) ++ b ++
        ("<h1>".data ++ escList (clamp_title h1 70).data ++ "</h1>".data) ++
        c := by
  obtain ⟨a, b, c, h⟩ := render_pageFront_decomp h1 canonical nav_key sub
  refine ⟨a, b, c ++ render innerPieces ++ render pageBack, ?_⟩
  rw [pagePieces_split, render_append, render_append, h]
  simp [List.append_assoc]

theorem make_page_decomp (h1 canonical nav_key sub inner : String) :
    ∃ a b c : List Char,
      (make_page h1 canonical nav_key sub inner).data =
        a ++ ("<title>".data ++ escList (clamp_title h1 70).data ++
          "</title>".data) ++ b ++
        ("<h1>".data ++ escList (clamp_title h1 70).data ++ "</h1>".data) ++
        c := by
  rw [make_page_data h1 canonical nav_key sub inner [Piece.lit inner]
    (by simp [render, renderPiece])]
  exact render_pagePieces_decomp h1 canonical nav_key sub [Piece.lit inner]

/-! ### `make_section`: positional pairing, surplus dropped -/

theorem make_section_nil_left (ps : List String) : make_section [] ps = "" := rfl

theorem make_section_nil_right (hs : List String) : make_section hs [] = "" := by
  cases hs with
  | nil => rfl
  | cons h t => rfl

theorem make_section_cons (h p : String) (hs ps : List String) :
    make_section (h :: hs) (p :: ps) =
      ("<h2>" ++ esc h ++ "</h2>") ++ "\n" ++
        ("<p>" ++ linkify_curly p ++ "</p>") ++
        (if hs = [] ∨ ps = [] then "" else "\n" ++ make_section hs ps) := by
  by_cases hh : hs = [] ∨ ps = []
  · rw [if_pos hh]
    apply String.ext
    rcases hh with e | e
    · subst e
      simp [make_section, section_parts, joinSep, List.zip_cons_cons,
        List.zip_nil_left, String.data_append, List.append_assoc]
    · subst e
      cases hs with
      | nil =>
        simp [make_section, section_parts, joinSep, List.zip_cons_cons,
          List.zip_nil_left, String.data_append, List.append_assoc]
      | cons h' hs' =>
        simp [make_section, section_parts, joinSep, List.zip_cons_cons,
          List.zip_nil_right, String.data_append, List.append_assoc]
  · push_neg at hh
    rw [if_neg (by tauto)]
    obtain ⟨h1ne, h2ne⟩ := hh
    cases hs with
    | nil => exact absurd rfl h1ne
    | cons h' hs' =>
      cases ps with
      | nil => exact absurd rfl h2ne
      | cons p' ps' =>
        apply String.ext
        have hne : section_parts (h' :: hs') (p' :: ps') ≠ [] := by
          rw [section_parts_cons]
          simp
        rw [make_section, section_parts_cons, joinSep_cons₂,
          joinSep_cons_ne "\n" _ hne,
          show joinSep "\n" (section_parts (h' :: hs') (p' :: ps')) =
            make_section (h' :: hs') (p' :: ps') from rfl]
        simp [String.data_append, List.append_assoc]

theorem h2_count_make_section (hs ps : List String) :
    countSub "<h2>" (make_section hs ps) = min hs.length ps.length := by
  simp only [countSub]
  rw [make_section_data]
  rw [countPre_render_litsOk ['2', '>'] (by decide) (by decide) _
    (litsOk_sectionPieces ['<', 'h', '2', '>'] (by decide) (by decide)
      (by decide) (by decide) (by decide) hs ps)]
  rw [sum_count_sectionPieces ['<', 'h', '2', '>'] 1 0 (by decide) (by decide)
    hs ps]
  rw [List.length_zip]
  omega

theorem p_count_make_section (hs ps : List String) :
    countSub "<p>" (make_section hs ps) = min hs.length ps.length := by
  simp only [countSub]
  rw [make_section_data]
  rw [countPre_render_litsOk ['>'] (by decide) (by decide) _
    (litsOk_sectionPieces ['<', 'p', '>'] (by decide) (by decide)
      (by decide) (by decide) (by decide) hs ps)]
  rw [sum_count_sectionPieces ['<', 'p', '>'] 1 0 (by decide) (by decide)
    hs ps]
  rw [List.length_zip]
  omega

/-! ### Sitemap entries -/

theorem suffix_of_append_right {l x y : List Char} (h : l <:+ x ++ y)
    (hlen : l.length ≤ y.length) : l <:+ y := by
  obtain ⟨t, ht⟩ := h
  have hxt : x.length ≤ t.length := by
    have hl := congrArg List.length ht
    simp only [List.length_append] at hl
    omega
  refine ⟨t.drop x.length, ?_⟩
  have h2 : (t ++ l).drop x.length = (x ++ y).drop x.length := by rw [ht]
  rw [List.drop_append_eq_append_drop, List.drop_left,
    Nat.sub_eq_zero_of_le hxt, List.drop_zero] at h2
  exact h2

theorem stradFree_append_right {pat y : List Char} (x : List Char)
    (hy : stradFree pat y = true) (hlen : pat.length ≤ y.length + 1) :
    stradFree pat (x ++ y) = true := by
  refine List.all_eq_true.mpr fun n hn => ?_
  have hnlt : n < pat.length := List.mem_range.mp hn
  rcases Nat.eq_zero_or_pos n with h0 | h0
  · exact Bool.or_eq_true_iff.mpr (Or.inl (by simp [h0]))
  · refine Bool.or_eq_true_iff.mpr (Or.inr ?_)
    rw [Bool.not_eq_true']
    cases hsuf : ((pat.take n).isSuffixOf (x ++ y)) with
    | false => rfl
    | true =>
      exfalso
      rw [List.isSuffixOf_iff_suffix] at hsuf
      have hlen2 : (pat.take n).length ≤ y.length := by
        rw [List.length_take]
        omega
      have h3 : (pat.take n).isSuffixOf y = true :=
        List.isSuffixOf_iff_suffix.mpr (suffix_of_append_right hsuf hlen2)
      rw [stradFree_spec hy n h0 hnlt] at h3
      exact Bool.false_ne_true h3

theorem countPre_entry (u : String) (hu : ltFree u.data = true) :
    countPre "<url><loc>".data (sitemap_entry u).data = 1 := by
  rw [sitemap_entry, String.data_append, String.data_append,
    List.append_assoc]
  rw [countPre_append_stradFree _ _ (by decide)]
  rw [countPre_append_stradFree _ _ (stradFree_of_ltFree _ hu)]
  rw [countPre_zero_of_ltFree _ hu]
  decide

theorem stradFree_entry (u : String) :
    stradFree "<url><loc>".data (sitemap_entry u).data = true := by
  rw [sitemap_entry, String.data_append, String.data_append]
  exact stradFree_append_right _ (by decide) (by decide)

theorem countPre_sitemap_body (urls : List String)
    (hfree : ∀ u ∈ urls, ltFree u.data = true) :
    countPre "<url><loc>".data
      ((concatAll (urls.map sitemap_entry)).data ++ "</urlset>\n".data) =
      urls.length := by
  induction urls with
  | nil => decide
  | cons u rest ih =>
    rw [List.map_cons, show concatAll (sitemap_entry u ::
        rest.map sitemap_entry) = sitemap_entry u ++
        concatAll (rest.map sitemap_entry) from rfl,
      String.data_append, List.append_assoc,
      countPre_append_stradFree _ _ (stradFree_entry u),
      countPre_entry u (hfree u (List.mem_cons_self u rest)),
      ih (fun v hv => hfree v (List.mem_cons_of_mem u hv)),
      List.length_cons]
    omega

theorem countSub_sitemap (urls : List String)
    (hfree : ∀ u ∈ urls, ltFree u.data = true) :
    countSub "<url><loc>" (sitemap_xml urls) = urls.length := by
  simp only [countSub, sitemap_xml]
  rw [String.data_append, String.data_append, List.append_assoc]
  rw [countPre_append_stradFree _ _ (by decide)]
  have hb := countPre_sitemap_body urls hfree
  rw [show ("<url><loc>" : String).data =
    ['<', 'u', 'r', 'l', '>', '<', 'l', 'o', 'c', '>'] from rfl] at hb
  rw [hb, show countPre ['<', 'u', 'r', 'l', '>', '<', 'l', 'o', 'c', '>']
    ("<?xml version=\x221.0\x22 encoding=\x22UTF-8\x22?>\n<urlset xmlns=\x22http://www.sitemaps.org/schemas/sitemap/0.9\x22>\n" : String).data = 0
    from by decide, Nat.zero_add]

theorem ltFree_siteUrl (s : String) :
    ltFree ("/" ++ slugify s ++ "/").data = true := by
  rw [String.data_append, String.data_append]
  refine ltFree_append (ltFree_append (by decide) ?_) (by decide)
  have h := (slugifyList_props s.data).1
  refine List.all_eq_true.mpr fun c hc => ?_
  have h2 := List.all_eq_true.mp h c hc
  cases hq : (c == '<') with
  | false => simp [hq]
  | true =>
    have hc2 : c = '<' := by simpa using hq
    subst hc2
    exact absurd h2 (by decide)

theorem ltFree_city_state_slug (city state : String) :
    ltFree ("/" ++ city_state_slug city state ++ "/").data = true := by
  rw [String.data_append, String.data_append, city_state_slug_data]
  refine ltFree_append (ltFree_append (by decide) ?_) (by decide)
  have hc : ltFree ("/" ++ slugify city ++ "/").data = true := ltFree_siteUrl city
  have hs : ltFree ("/" ++ slugify state ++ "/").data = true := ltFree_siteUrl state
  rw [String.data_append, String.data_append] at hc hs
  simp only [ltFree, List.all_append, Bool.and_eq_true] at hc hs
  refine ltFree_append hc.1.2 ?_
  refine List.all_eq_true.mpr fun c hc2 => ?_
  rcases List.mem_cons.mp hc2 with rfl | h4
  · decide
  · exact List.all_eq_true.mp hs.1.2 c h4

theorem ltFree_siteUrls (cities : List CityWithCol) :
    ∀ u ∈ siteUrls cities, ltFree u.data = true := by
  intro u hu
  rw [siteUrls] at hu
  rcases List.mem_append.mp hu with h | h
  · simp only [List.mem_cons, List.not_mem_nil, or_false] at h
    rcases h with rfl | rfl | rfl
    · decide
    · decide
    · decide
  · obtain ⟨c, _, rfl⟩ := List.mem_map.mp h
    exact ltFree_city_state_slug c.1 c.2.1

theorem slug_wrap_inj : Function.Injective (fun s : String => "/" ++ s ++ "/") := by
  intro a b hab
  simp only at hab
  have h := congrArg String.data hab
  simp only [String.data_append] at h
  exact String.ext (List.append_cancel_left (List.append_cancel_right h))

theorem slug_wrap_ne_root (s : String) : "/" ++ s ++ "/" ≠ "/" := by
  intro h
  have h2 := congrArg (fun q : String => q.data.length) h
  simp only [String.data_append, List.length_append] at h2
  rw [show ("/" : String).data.length = 1 from rfl] at h2
  omega

theorem siteUrls_nodup (cities : List CityWithCol)
    (hnd : (cities.map (fun c => city_state_slug c.1 c.2.1)).Nodup)
    (hno : ∀ c ∈ cities, city_state_slug c.1 c.2.1 ≠ "cost" ∧
      city_state_slug c.1 c.2.1 ≠ "how-to") :
    (siteUrls cities).Nodup := by
  rw [siteUrls, show (cities.map (fun c => "/" ++ city_state_slug c.1 c.2.1 ++ "/")) =
    (cities.map (fun c => city_state_slug c.1 c.2.1)).map
      (fun s => "/" ++ s ++ "/") from by rw [List.map_map]; rfl]
  refine List.nodup_append.mpr ⟨by decide, hnd.map slug_wrap_inj, ?_⟩
  intro u hu hu2
  obtain ⟨s, hs, rfl⟩ := List.mem_map.mp hu2
  obtain ⟨c, hc, rfl⟩ := List.mem_map.mp hs
  simp only [List.mem_cons, List.not_mem_nil, or_false] at hu
  rcases hu with h | h | h
  · exact slug_wrap_ne_root _ h
  · rw [show ("/cost/" : String) = "/" ++ "cost" ++ "/" from rfl] at h
    exact (hno c hc).1 (slug_wrap_inj h)
  · rw [show ("/how-to/" : String) = "/" ++ "how-to" ++ "/" from rfl] at h
    exact (hno c hc).2 (slug_wrap_inj h)

/-! ### The city loader (`load_cities_from_csv`)

The CSV file is modelled after the `csv.DictReader` layer: the header's field
names (`None` when the file is empty) and one record per data row, each record
giving the optional raw text of its `city`, `state` and `col` cells (`none`
when the row has no such cell).  Python's `float` parser is a parameter
`parseFloat` (`none` models `ValueError`), and the `repr` of a row dict and of
the fieldnames list — used only inside messages — are parameters `rowRepr` and
`fieldsRepr`.  `Char.toUpper` models `str.upper` on the ASCII state codes. -/

/-- One data row as `csv.DictReader` hands it to the loader. -/
structure Row where
  city : Option String
  state : Option String
  col : Option String

/-- Python `s.strip()`. -/
def pyStrip (s : String) : String := ⟨stripChars pyIsSpace s.data⟩

/-- Python `s.upper()` (ASCII). -/
def pyUpper (s : String) : String := ⟨s.data.map Char.toUpper⟩

/-- `(row.get("city") or "").strip()`. -/
def rowCity (r : Row) : String := pyStrip (r.city.getD "")

/-- `(row.get("state") or "").strip().upper()`. -/
def rowState (r : Row) : String := pyUpper (pyStrip (r.state.getD ""))

/-- `(row.get("col") or "").strip()`. -/
def rowColRaw (r : Row) : String := pyStrip (r.col.getD "")

/-- Python `repr` of a quote-free string: the text between two single
quotes. -/
def pyRepr (s : String) : String := ⟨sq :: (s.data ++ [sq])⟩

/-- `f"Missing city/state/col at CSV line \x7bi\x7d: \x7brow\x7d"`. -/
def missingMsg (rowRepr : Row → String) (i : ℕ) (r : Row) : String :=
  "Missing city/state/col at CSV line " ++ toString i ++ ": " ++ rowRepr r

/-- `f"Invalid col value at CSV line \x7bi\x7d: \x7bcol_raw!r\x7d"`. -/
def invalidMsg (i : ℕ) (raw : String) : String :=
  "Invalid col value at CSV line " ++ toString i ++ ": " ++ pyRepr raw

/-- `f"CSV must have headers: city,state,col (found: \x7bfieldnames\x7d)"`. -/
def headerMsg (fieldsRepr : String) : String :=
  "CSV must have headers: city,state,col (found: " ++ fieldsRepr ++ ")"

/-- The loader's row loop, at CSV line `i` (`enumerate(reader, start=2)`). -/
def load_go (parseFloat : String → Option ℚ) (rowRepr : Row → String) :
    ℕ → List Row → Except String (List CityWithCol)
  | _, [] => Except.ok []
  | i, r :: rest =>
    if rowCity r = "" ∨ rowState r = "" ∨ rowColRaw r = "" then
      Except.error (missingMsg rowRepr i r)
    else
      match parseFloat (rowColRaw r) with
      | none => Except.error (invalidMsg i (rowColRaw r))
      | some c =>
        match load_go parseFloat rowRepr (i + 1) rest with
        | Except.error e => Except.error e
        | Except.ok cs => Except.ok ((rowCity r, rowState r, c) :: cs)

/-- `load_cities_from_csv` from generate.py: header check, then the row
loop starting at raw CSV line 2. -/
def load_cities_from_csv (parseFloat : String → Option ℚ)
    (rowRepr : Row → String) (fieldsRepr : Option (List String) → String)
    (fieldnames : Option (List String)) (rows : List Row) :
    Except String (List CityWithCol) :=
  match fieldnames with
  | none => Except.error (headerMsg (fieldsRepr none))
  | some fns =>
    if fns = [] ∨ ¬ ("city" ∈ fns ∧ "state" ∈ fns ∧ "col" ∈ fns) then
      Except.error (headerMsg (fieldsRepr (some fns)))
    else load_go parseFloat rowRepr 2 rows

/-- A header that passes the loader's check. -/
def headerOk : Option (List String) → Prop
  | none => False
  | some fns => fns ≠ [] ∧ "city" ∈ fns ∧ "state" ∈ fns ∧ "col" ∈ fns

/-- A row that passes the loader's checks: no empty stripped field, and a
parsable col. -/
def rowOk (parseFloat : String → Option ℚ) (r : Row) : Prop :=
  rowCity r ≠ "" ∧ rowState r ≠ "" ∧ rowColRaw r ≠ "" ∧
    (parseFloat (rowColRaw r)).isSome = true

/-- The message a failing row produces at CSV line `i`. -/
def rowErrMsg (rowRepr : Row → String) (i : ℕ) (r : Row) : String :=
  if rowCity r = "" ∨ rowState r = "" ∨ rowColRaw r = "" then
    missingMsg rowRepr i r
  else invalidMsg i (rowColRaw r)

theorem load_go_cons (pf : String → Option ℚ) (rr : Row → String) (i : ℕ)
    (r : Row) (rest : List Row) :
    load_go pf rr i (r :: rest) =
      if rowCity r = "" ∨ rowState r = "" ∨ rowColRaw r = "" then
        Except.error (missingMsg rr i r)
      else match pf (rowColRaw r) with
        | none => Except.error (invalidMsg i (rowColRaw r))
        | some c =>
          match load_go pf rr (i + 1) rest with
          | Except.error e => Except.error e
          | Except.ok cs => Except.ok ((rowCity r, rowState r, c) :: cs) := rfl

theorem load_go_spec (pf : String → Option ℚ) (rr : Row → String) :
    ∀ (rows : List Row) (i : ℕ),
      ((∀ r ∈ rows, rowOk pf r) →
        ∃ cs, load_go pf rr i rows = Except.ok cs ∧ cs.length = rows.length) ∧
      (∀ e, load_go pf rr i rows = Except.error e →
        ∃ pre r post, rows = pre ++ r :: post ∧ (∀ q ∈ pre, rowOk pf q) ∧
          ¬ rowOk pf r ∧ e = rowErrMsg rr (i + pre.length) r) := by
  intro rows
  induction rows with
  | nil =>
    intro i
    refine ⟨fun _ => ⟨[], rfl, rfl⟩, fun e he => ?_⟩
    exact Except.noConfusion he
  | cons r rest ih =>
    intro i
    constructor
    · intro hall
      obtain ⟨hc, hs, hcr, hps⟩ := hall r (List.mem_cons_self r rest)
      obtain ⟨c, hpf⟩ := Option.isSome_iff_exists.mp hps
      obtain ⟨cs, hcs, hlen⟩ :=
        (ih (i + 1)).1 (fun q hq => hall q (List.mem_cons_of_mem r hq))
      refine ⟨(rowCity r, rowState r, c) :: cs, ?_, by simp [hlen]⟩
      rw [load_go_cons, if_neg (by tauto), hpf, hcs]
    · intro e he
      rw [load_go_cons] at he
      by_cases hmiss : rowCity r = "" ∨ rowState r = "" ∨ rowColRaw r = ""
      · rw [if_pos hmiss] at he
        injection he with hmsg
        refine ⟨[], r, rest, rfl, by simp, ?_, ?_⟩
        · rintro ⟨h1, h2, h3, _⟩
          rcases hmiss with h | h | h <;> contradiction
        · rw [← hmsg, rowErrMsg, if_pos hmiss, List.length_nil, Nat.add_zero]
      · rw [if_neg hmiss] at he
        cases hpf : pf (rowColRaw r) with
        | none =>
          rw [hpf] at he
          injection he with hmsg
          refine ⟨[], r, rest, rfl, by simp, ?_, ?_⟩
          · rintro ⟨_, _, _, h4⟩
            rw [hpf] at h4
            exact absurd h4 (by simp)
          · rw [← hmsg, rowErrMsg, if_neg hmiss, List.length_nil, Nat.add_zero]
        | some c =>
          rw [hpf] at he
          cases hrec : load_go pf rr (i + 1) rest with
          | ok cs =>
            rw [hrec] at he
            exact Except.noConfusion he
          | error e2 =>
            rw [hrec] at he
            injection he with hee
            obtain ⟨pre, r2, post, hsplit, hpreok, hbad, hmsg⟩ :=
              (ih (i + 1)).2 e2 hrec
            push_neg at hmiss
            refine ⟨r :: pre, r2, post, by rw [hsplit, List.cons_append], ?_, hbad, ?_⟩
            · intro q hq
              rcases List.mem_cons.mp hq with rfl | hq2
              · exact ⟨hmiss.1, hmiss.2.1, hmiss.2.2, by rw [hpf]; rfl⟩
              · exact hpreok q hq2
            · rw [← hee, hmsg, List.length_cons]
              have harith : i + 1 + pre.length = i + (pre.length + 1) := by
                omega
              rw [harith]

theorem load_go_ok_all (pf : String → Option ℚ) (rr : Row → String) :
    ∀ (rows : List Row) (i : ℕ) (cs : List CityWithCol),
      load_go pf rr i rows = Except.ok cs → ∀ r ∈ rows, rowOk pf r := by
  intro rows
  induction rows with
  | nil =>
    intro i cs _ r hr
    cases hr
  | cons q rest ih =>
    intro i cs hcs r hr
    rw [load_go_cons] at hcs
    by_cases hmiss : rowCity q = "" ∨ rowState q = "" ∨ rowColRaw q = ""
    · rw [if_pos hmiss] at hcs
      exact Except.noConfusion hcs
    · rw [if_neg hmiss] at hcs
      cases hpf : pf (rowColRaw q) with
      | none =>
        rw [hpf] at hcs
        exact Except.noConfusion hcs
      | some c =>
        rw [hpf] at hcs
        cases hrec : load_go pf rr (i + 1) rest with
        | error e2 =>
          rw [hrec] at hcs
          exact Except.noConfusion hcs
        | ok cs2 =>
          push_neg at hmiss
          rcases List.mem_cons.mp hr with rfl | hr2
          · exact ⟨hmiss.1, hmiss.2.1, hmiss.2.2, by rw [hpf]; rfl⟩
          · exact ih (i + 1) cs2 hrec r hr2

theorem isInfix_middle (a b c : List Char) : b <:+: a ++ b ++ c :=
  ⟨a, c, by simp [List.append_assoc]⟩

theorem missingMsg_line (rr : Row → String) (i : ℕ) (r : Row) :
    (("at CSV line " ++ toString i).data <:+: (missingMsg rr i r).data) ∧
    ("city/state/col".data <:+: (missingMsg rr i r).data) := by
  constructor
  · refine ⟨"Missing city/state/col ".data, (": " ++ rr r).data, ?_⟩
    simp [missingMsg, String.data_append, List.append_assoc]
  · refine ⟨"Missing ".data,
      (" at CSV line " ++ toString i ++ ": " ++ rr r).data, ?_⟩
    simp [missingMsg, String.data_append, List.append_assoc]

theorem invalidMsg_line (i : ℕ) (raw : String) :
    (("at CSV line " ++ toString i).data <:+: (invalidMsg i raw).data) ∧
    ("col".data <:+: (invalidMsg i raw).data) := by
  constructor
  · refine ⟨"Invalid col value ".data, (": " ++ pyRepr raw).data, ?_⟩
    simp [invalidMsg, String.data_append, List.append_assoc]
  · refine ⟨"Invalid ".data,
      (" value at CSV line " ++ toString i ++ ": " ++ pyRepr raw).data, ?_⟩
    simp [invalidMsg, String.data_append, List.append_assoc]

/-! ### The claims -/

set_option maxRecDepth 100000 in
/-- C1: the Template Substitution Engine does replace a generic brace token
by a homepage anchor with the token as visible text (shown on the documented
sample input), but `location_cost_section` passes its substituted paragraph
through `esc` rather than `linkify_curly`: on a city page the token
`\x7bview our poison ivy removal cost guide\x7d` survives as literal text and
the section contains no anchor at all, contradicting the claim for the
city-page location cost paragraph. -/
theorem location_cost_paragraph_not_linkified :
    linkify_curly "Call \x7bpoison ivy removal services\x7d today" =
      "Call <a href=\x22/\x22>poison ivy removal services</a> today" ∧
    ("\x7bview our poison ivy removal cost guide\x7d".data <:+:
      (location_cost_section "Austin" "TX" 1).data) ∧
    ¬ ("<a".data <:+: (location_cost_section "Austin" "TX" 1).data) := by
  refine ⟨by decide, ?_, ?_⟩ <;> rw [location_cost_section_austin]
  · decide
  · decide

/-- C2, counterexample to the frozen statement: for the pair
`("", "TX")` the combined slug is `"-tx"`, which neither matches
`^[a-z0-9]+(-[a-z0-9]+)*$` nor is empty. -/
theorem city_state_slug_regex_cex :
    city_state_slug "" "TX" = "-tx" ∧
    ¬ (matchesSlugRe (city_state_slug "" "TX") = true ∨
        city_state_slug "" "TX" = "") := by
  constructor
  · decide
  · decide

/-- C2 (amended: the combined slug matches the regular expression whenever
both component slugs are nonempty; each single slug always matches or is
empty). -/
theorem city_state_slug_matches_regex (s city state : String)
    (h1 : slugify city ≠ "") (h2 : slugify state ≠ "") :
    (matchesSlugRe (slugify s) = true ∨ slugify s = "") ∧
    matchesSlugRe (city_state_slug city state) = true := by
  constructor
  · by_cases h : slugify s = ""
    · exact Or.inr h
    · exact Or.inl (matchesSlugRe_slugify s h)
  · exact matchesSlugRe_city_state city state h1 h2

/-- The amended C2 statement is inhabited at a concrete city/state pair. -/
theorem city_state_slug_matches_regex_witness :
    matchesSlugRe (city_state_slug "Austin" "TX") = true ∧
      (matchesSlugRe (slugify "Saint Paul") = true ∨ slugify "Saint Paul" = "") := by
  have h := city_state_slug_matches_regex "Saint Paul" "Austin" "TX"
    (by decide) (by decide)
  exact ⟨h.2, h.1⟩

set_option maxRecDepth 8000 in
/-- C3, counterexample to the frozen statement: the loader accepts a city
list that repeats a city (it validates only non-emptiness and the col
number), and then the sitemap holds the same `<url><loc>` entry twice —
while both rows write the same output directory, so there are fewer emitted
pages than entries. -/
theorem sitemap_duplicate_cex :
    siteUrls [("Austin", "TX", (1 : ℚ)), ("Austin", "TX", (1 : ℚ))] =
      ["/", "/cost/", "/how-to/", "/austin-tx/", "/austin-tx/"] ∧
    ¬ (siteUrls [("Austin", "TX", (1 : ℚ)), ("Austin", "TX", (1 : ℚ))]).Nodup ∧
    countSub "<url><loc>/austin-tx/</loc></url>"
      (sitemap_xml (siteUrls
        [("Austin", "TX", (1 : ℚ)), ("Austin", "TX", (1 : ℚ))])) = 2 := by
  refine ⟨by decide, by decide, by decide⟩

/-- C3 (amended): the sitemap holds exactly one `<url><loc>` entry per listed
canonical path — `3 + cities.length` many — and the paths are pairwise
distinct provided the city slugs are pairwise distinct and no slug collides
with the fixed `cost` and `how-to` paths. -/
theorem sitemap_one_entry_per_page (cities : List CityWithCol)
    (hnd : (cities.map (fun c => city_state_slug c.1 c.2.1)).Nodup)
    (hno : ∀ c ∈ cities, city_state_slug c.1 c.2.1 ≠ "cost" ∧
      city_state_slug c.1 c.2.1 ≠ "how-to") :
    countSub "<url><loc>" (sitemap_xml (siteUrls cities)) =
      (siteUrls cities).length ∧
    (siteUrls cities).length = 3 + cities.length ∧
    (siteUrls cities).Nodup := by
  refine ⟨countSub_sitemap _ (ltFree_siteUrls cities), ?_,
    siteUrls_nodup cities hnd hno⟩
  simp only [siteUrls, List.length_append, List.length_map, List.length_cons,
    List.length_nil]

/-- The amended C3 statement at a concrete one-city list: four pages, four
sitemap entries. -/
theorem sitemap_one_entry_per_page_witness :
    countSub "<url><loc>"
      (sitemap_xml (siteUrls [("Austin", "TX", (1 : ℚ))])) = 4 := by
  have h := sitemap_one_entry_per_page [("Austin", "TX", (1 : ℚ))]
    (by decide) (by decide)
  have h2 := h.1
  rw [h.2.1] at h2
  simpa using h2

/-- C4: the loader succeeds exactly when the header carries the three columns
and every row has non-empty stripped city/state/col with a parsable col; on
success it returns one record per data row; any error is either the header
message or the first failing row's message — `Missing city/state/col at CSV
line \x7bi\x7d: \x7brow\x7d` or `Invalid col value at CSV line \x7bi\x7d:
\x7bcol_raw!r\x7d` at raw line `i = 2 + (rows before it)` — and those row
messages carry the column names and the raw CSV line number as substrings. -/
theorem loader_validates (pf : String → Option ℚ) (rr : Row → String)
    (fr : Option (List String) → String) (fns : Option (List String))
    (rows : List Row) :
    ((∃ cs, load_cities_from_csv pf rr fr fns rows = Except.ok cs) ↔
      (headerOk fns ∧ ∀ r ∈ rows, rowOk pf r)) ∧
    (∀ cs, load_cities_from_csv pf rr fr fns rows = Except.ok cs →
      cs.length = rows.length) ∧
    (∀ e, load_cities_from_csv pf rr fr fns rows = Except.error e →
      (¬ headerOk fns ∧ e = headerMsg (fr fns)) ∨
      ∃ pre r post, rows = pre ++ r :: post ∧ (∀ q ∈ pre, rowOk pf q) ∧
        ¬ rowOk pf r ∧ e = rowErrMsg rr (2 + pre.length) r) ∧
    (∀ i r, (("at CSV line " ++ toString i).data <:+:
        (missingMsg rr i r).data) ∧
      ("city/state/col".data <:+: (missingMsg rr i r).data)) ∧
    (∀ i raw, (("at CSV line " ++ toString i).data <:+:
        (invalidMsg i raw).data) ∧
      ("col".data <:+: (invalidMsg i raw).data)) := by
  cases fns with
  | none =>
    refine ⟨?_, ?_, ?_, missingMsg_line rr, invalidMsg_line⟩
    · constructor
      · rintro ⟨cs, hcs⟩
        exact Except.noConfusion hcs
      · rintro ⟨hh, -⟩
        exact absurd hh (by simp [headerOk])
    · intro cs hcs
      exact Except.noConfusion hcs
    · intro e he
      injection he with hmsg
      exact Or.inl ⟨by simp [headerOk], hmsg.symm⟩
  | some fns =>
    by_cases hh : fns = [] ∨ ¬ ("city" ∈ fns ∧ "state" ∈ fns ∧ "col" ∈ fns)
    · refine ⟨?_, ?_, ?_, missingMsg_line rr, invalidMsg_line⟩
      · constructor
        · rintro ⟨cs, hcs⟩
          rw [show load_cities_from_csv pf rr fr (some fns) rows =
            Except.error (headerMsg (fr (some fns))) from by
              rw [load_cities_from_csv, if_pos hh]] at hcs
          exact Except.noConfusion hcs
        · rintro ⟨hok, -⟩
          rcases hh with h | h
          · exact absurd hok.1 (by simp [h])
          · exact absurd ⟨hok.2.1, hok.2.2.1, hok.2.2.2⟩ h
      · intro cs hcs
        rw [show load_cities_from_csv pf rr fr (some fns) rows =
          Except.error (headerMsg (fr (some fns))) from by
            rw [load_cities_from_csv, if_pos hh]] at hcs
        exact Except.noConfusion hcs
      · intro e he
        rw [show load_cities_from_csv pf rr fr (some fns) rows =
          Except.error (headerMsg (fr (some fns))) from by
            rw [load_cities_from_csv, if_pos hh]] at he
        injection he with hmsg
        refine Or.inl ⟨?_, hmsg.symm⟩
        rintro ⟨h1, h2, h3, h4⟩
        exact hh.elim (fun h => h1 h) (fun h => h ⟨h2, h3, h4⟩)
    · have hload : load_cities_from_csv pf rr fr (some fns) rows =
          load_go pf rr 2 rows := by
        rw [load_cities_from_csv, if_neg hh]
      push_neg at hh
      refine ⟨?_, ?_, ?_, missingMsg_line rr, invalidMsg_line⟩
      · constructor
        · rintro ⟨cs, hcs⟩
          rw [hload] at hcs
          exact ⟨⟨hh.1, hh.2.1, hh.2.2.1, hh.2.2.2⟩,
            load_go_ok_all pf rr rows 2 cs hcs⟩
        · rintro ⟨-, hall⟩
          obtain ⟨cs, hcs, -⟩ := (load_go_spec pf rr rows 2).1 hall
          exact ⟨cs, by rw [hload, hcs]⟩
      · intro cs hcs
        rw [hload] at hcs
        have hall := load_go_ok_all pf rr rows 2 cs hcs
        obtain ⟨cs2, hcs2, hlen⟩ := (load_go_spec pf rr rows 2).1 hall
        rw [hcs2] at hcs
        injection hcs with h
        rw [← h]
        exact hlen
      · intro e he
        rw [hload] at he
        exact Or.inr ((load_go_spec pf rr rows 2).2 e he)

/-- C5: the cost bounds multiply the base integers 300 and 1200 by the
multiplier and truncate (for a nonnegative multiplier, the floor), with a
dollar prefix; multiplier 1 gives exactly $300 and $1200 and multiplier 3/2
gives exactly $450 and $1800. -/
theorem cost_bounds_truncate (col : ℚ) (hcol : 0 ≤ col) :
    cost_lo_str col = "$" ++ toString ⌊(300 : ℚ) * col⌋ ∧
    cost_hi_str col = "$" ++ toString ⌊(1200 : ℚ) * col⌋ ∧
    cost_lo_str 1 = "$300" ∧ cost_hi_str 1 = "$1200" ∧
    cost_lo_str (3 / 2) = "$450" ∧ cost_hi_str (3 / 2) = "$1800" := by
  refine ⟨?_, ?_, cost_lo_str_one, cost_hi_str_one, cost_lo_str_mul15,
    cost_hi_str_mul15⟩
  · rw [cost_lo_str,
      show ((SiteConfig.cost_low : ℚ)) = 300 from by
        norm_num [SiteConfig.cost_low],
      pyInt_eq_floor _ (mul_nonneg (by norm_num) hcol)]
  · rw [cost_hi_str,
      show ((SiteConfig.cost_high : ℚ)) = 1200 from by
        norm_num [SiteConfig.cost_high],
      pyInt_eq_floor _ (mul_nonneg (by norm_num) hcol)]

/-- The C5 statement at the concrete multiplier 1. -/
theorem cost_bounds_truncate_witness :
    cost_lo_str 1 = "$" ++ toString ⌊(300 : ℚ) * 1⌋ :=
  (cost_bounds_truncate 1 (by norm_num)).1

/-- C6: every generated page (home, cost, how-to, each city page) contains
exactly one `<h1>` occurrence, and every page built by `make_page` carries
the same character string (the escaped clamped h1) as both its `<title>` text
and its `<h1>` text. -/
theorem one_h1_and_title_eq_h1 :
    (∀ cities : List CityWithCol, countSub "<h1>" (homepage_html cities) = 1) ∧
    countSub "<h1>" cost_page_html = 1 ∧
    countSub "<h1>" howto_page_html = 1 ∧
    (∀ (city state : String) (col : ℚ),
      countSub "<h1>" (city_page_html city state col) = 1) ∧
    (∀ h1 canonical nav_key sub inner : String, ∃ a b c : List Char,
      (make_page h1 canonical nav_key sub inner).data =
        a ++ ("<title>".data ++ escList (clamp_title h1 70).data ++
          "</title>".data) ++ b ++
        ("<h1>".data ++ escList (clamp_title h1 70).data ++ "</h1>".data) ++
        c) :=
  ⟨h1_count_homepage, h1_count_cost_page, h1_count_howto_page,
    h1_count_city_page, make_page_decomp⟩

/-- C7, counterexample to the frozen statement: at maximum character count 0
the clamp returns a two-character string, exceeding the limit (the Python
slice `title[:max_chars-1]` becomes `title[:-1]` and keeps one character). -/
theorem clamp_title_overflow_cex :
    ¬ (((clamp_title "ab" 0).length : ℤ) ≤ 0) := by decide

/-- C7 (amended: for a limit of at least one): short titles are returned
unchanged, long ones become the first `max-1` characters with trailing
whitespace stripped plus one ellipsis, and the result never exceeds the
limit. -/
theorem clamp_title_clamps (title : String) (m : ℤ) (hm : 1 ≤ m) :
    ((title.length : ℤ) ≤ m → clamp_title title m = title) ∧
      (m < (title.length : ℤ) → clamp_title title m =
        ⟨rstrip (title.data.take (m - 1).toNat) ++ [hellip]⟩) ∧
      ((clamp_title title m).length : ℤ) ≤ m :=
  clamp_title_spec title m hm

/-- The amended C7 statement at concrete inputs (a long and a short title). -/
theorem clamp_title_clamps_witness :
    clamp_title "abcdef" 3 = String.mk ['a', 'b', hellip] ∧
      clamp_title "ab" 3 = "ab" := by
  constructor
  · exact ((clamp_title_clamps "abcdef" 3 (by decide)).2.1 (by decide)).trans
      (by decide)
  · exact (clamp_title_clamps "ab" 3 (by decide)).1 (by decide)

/-- C8, counterexample to the frozen statement: at limit `-1` clamping is not
idempotent (`clamp("abc", -1) = "a…"` but clamping again gives `"…"`). -/
theorem clamp_title_idem_cex :
    clamp_title (clamp_title "abc" (-1)) (-1) ≠ clamp_title "abc" (-1) := by
  decide

/-- C8 (amended: for a nonnegative limit): clamping the result of clamping a
title at the same limit returns it unchanged. -/
theorem clamp_title_idempotent (title : String) (m : ℤ) (hm : 0 ≤ m) :
    clamp_title (clamp_title title m) m = clamp_title title m :=
  clamp_title_idem title m hm

/-- The amended C8 statement at a concrete input. -/
theorem clamp_title_idempotent_witness :
    clamp_title (clamp_title "abcdef" 3) 3 = clamp_title "abcdef" 3 :=
  clamp_title_idempotent "abcdef" 3 (by decide)

/-- C9: the Slug Encoder is idempotent: re-slugging its own output returns it
unchanged. -/
theorem slugify_idempotent (s : String) : slugify (slugify s) = slugify s := by
  show (⟨slugifyList (slugify s).data⟩ : String) = ⟨slugifyList s.data⟩
  rw [show (slugify s).data = slugifyList s.data from rfl, slugifyList_idem]

/-- C10: `make_section` pairs headings with paragraphs positionally — the
head pair is emitted first, followed by a newline and the rest — emits
exactly `min` of the two lengths many `<h2>` and `<p>` elements, silently
drops the surplus of the longer sequence, and renders nothing when either
sequence is empty (in particular for two empty sequences). -/
theorem make_section_zip_spec :
    (∀ hs ps : List String,
      countSub "<h2>" (make_section hs ps) = min hs.length ps.length ∧
      countSub "<p>" (make_section hs ps) = min hs.length ps.length) ∧
    (∀ (h p : String) (hs ps : List String),
      make_section (h :: hs) (p :: ps) =
        ("<h2>" ++ esc h ++ "</h2>") ++ "\n" ++
          ("<p>" ++ linkify_curly p ++ "</p>") ++
          (if hs = [] ∨ ps = [] then "" else "\n" ++ make_section hs ps)) ∧
    (∀ ps, make_section [] ps = "") ∧
    (∀ hs, make_section hs [] = "") :=
  ⟨fun hs ps => ⟨h2_count_make_section hs ps, p_count_make_section hs ps⟩,
    make_section_cons, make_section_nil_left, make_section_nil_right⟩

end Gen
